import Mathlib

/-!
Verification of the nutrivium nutrition-tracker core (cobenia/citadel).

Shallow embedding of:
- the OpenAI analyzer service
  (`infrastructure/service/openai-nutrition-analyzer.service.ts`),
- the in-memory analysis store
  (`NutritionAnalysisRepositoryImpl` in
   `infrastructure/repository/notion.repository.ts`),
- the Notion page extraction and write-back
  (`NotionRepositoryImpl` in the same file),
- the orchestration use case
  (`application/use-case/analyze-image-nutrition.use-case.ts`).

Modelling conventions:
- JavaScript numbers are modelled as `Rat` (with a separate `nan`
  constructor in the JS value model); `Date`s as `Int` milliseconds
  (`Time`), with `toISOString` / `new Date(iso)` treated as a lossless
  round trip, which it is at millisecond granularity.
- `Buffer`s are modelled as `String`s standing for their base64 text.
- Asynchronous calls are pure: external effects (Notion fetches, image
  downloads, the OpenAI call) enter as explicitly passed outcomes, and
  `throw` is modelled with `Except String`.
-/

namespace Citadel

/-- Milliseconds since the epoch, the content of a JS `Date`. -/
abbrev Time := Int

/-! ## JavaScript value model

A small model of the JS values that flow through `JSON.parse` and the
response-validation code.  `nan` is kept separate from `num` so that
`Number(...)` failures (`NaN`) are visible.  Arrays and objects carry
their elements; prototype lookups and getters are out of scope. -/

inductive JsVal where
  | undefined
  | null
  | bool (b : Bool)
  | num (q : Rat)
  | nan
  | str (s : String)
  | arr (elems : List JsVal)
  | obj (fields : List (String × JsVal))
deriving Repr, BEq

/-- JS truthiness: `Boolean(v)`. -/
def jsTruthy : JsVal → Bool
  | .undefined => false
  | .null => false
  | .bool b => b
  | .num q => q != 0
  | .nan => false
  | .str s => s ≠ ""
  | .arr _ => true
  | .obj _ => true

/-- A simplified JS string-to-number conversion: trimmed empty string is
`0`; an optional sign followed by digits and an optional fractional part
is parsed as a decimal; anything else is `NaN` (`none`).  Exponent and
hex forms are not modelled (no claim depends on them). -/
def jsStringToNumber (s : String) : Option Rat :=
  let t := s.trim
  if t = "" then some 0
  else
    let (sign, body) : Rat × List Char :=
      match t.data with
      | '-' :: rest => ((-1 : Rat), rest)
      | '+' :: rest => ((1 : Rat), rest)
      | l => ((1 : Rat), l)
    let intPart := body.takeWhile (·.isDigit)
    let rest := body.dropWhile (·.isDigit)
    let (fracPart, rest2) : List Char × List Char :=
      match rest with
      | '.' :: r => (r.takeWhile (·.isDigit), r.dropWhile (·.isDigit))
      | r => ([], r)
    if rest2 = [] ∧ (intPart ≠ [] ∨ fracPart ≠ []) then
      let intVal : Nat := intPart.foldl (fun a c => a * 10 + (c.toNat - 48)) 0
      let fracVal : Nat := fracPart.foldl (fun a c => a * 10 + (c.toNat - 48)) 0
      some (sign * ((intVal : Rat) + (fracVal : Rat) / ((10 : Rat) ^ fracPart.length)))
    else none

mutual

/-- JS `String(v)`.  Number formatting is simplified to the `Rat`
representation; no claim depends on the exact digits. -/
def jsToString : JsVal → String
  | .undefined => "undefined"
  | .null => "null"
  | .bool true => "true"
  | .bool false => "false"
  | .num q => toString q
  | .nan => "NaN"
  | .str s => s
  | .arr xs => String.intercalate "," (jsToStringElems xs)
  | .obj _ => "[object Object]"

/-- Array elements under `Array.prototype.toString`: `null` and
`undefined` render as the empty string. -/
def jsToStringElems : List JsVal → List String
  | [] => []
  | .undefined :: rest => "" :: jsToStringElems rest
  | .null :: rest => "" :: jsToStringElems rest
  | v :: rest => jsToString v :: jsToStringElems rest

end

/-- JS `Number(v)`; `none` is `NaN`.  Objects convert via their string
form, as `ToPrimitive` does for plain JSON-derived values. -/
def jsToNumber : JsVal → Option Rat
  | .undefined => none
  | .null => some 0
  | .bool true => some 1
  | .bool false => some 0
  | .num q => some q
  | .nan => none
  | .str s => jsStringToNumber s
  | .arr xs => jsStringToNumber (jsToString (.arr xs))
  | .obj _ => none

/-- Optional-chained property access `v?.k`: object lookup, `undefined`
on everything else (including `null` and `undefined` receivers). -/
def jsGet (v : JsVal) (k : String) : JsVal :=
  match v with
  | .obj fields => ((fields.find? (fun p => p.1 = k)).map (·.2)).getD .undefined
  | _ => .undefined

/-- JS `a || b` on an already-converted number (`none` = `NaN`):
falsy (`NaN` or `0`) selects the default. -/
def jsNumOr (x : Option Rat) (d : Rat) : Rat :=
  match x with
  | some q => if q = 0 then d else q
  | none => d

/-- Clamp to the closed interval `[0,1]`:
`Math.max(0, Math.min(1, x))`. -/
def clamp01 (q : Rat) : Rat := max 0 (min 1 q)

/-! ## JSON parsing

A fuel-based model of `JSON.parse`.  Strings support the escapes
`\"`, `\\`, `\/`, `\n`, `\t`, `\r`; numbers are optional-sign decimals
with an optional fractional part (exponents are not modelled; no claim
depends on them).  `JSON.parse` requires the whole input to be one
value, possibly surrounded by whitespace. -/

def jsonWs (c : Char) : Bool := c = ' ' ∨ c = '\t' ∨ c = '\n' ∨ c = '\r'

def skipWs (l : List Char) : List Char := l.dropWhile jsonWs

def parseJsonString (l : List Char) : Option (String × List Char) :=
  go l []
where
  go : List Char → List Char → Option (String × List Char)
    | [], _ => none
    | '"' :: rest, acc => some (String.mk acc.reverse, rest)
    | '\\' :: e :: rest, acc =>
      match e with
      | '"' => go rest ('"' :: acc)
      | '\\' => go rest ('\\' :: acc)
      | '/' => go rest ('/' :: acc)
      | 'n' => go rest ('\n' :: acc)
      | 't' => go rest ('\t' :: acc)
      | 'r' => go rest ('\r' :: acc)
      | _ => none
    | '\\' :: [], _ => none
    | c :: rest, acc => go rest (c :: acc)

def parseJsonNumber (l : List Char) : Option (Rat × List Char) :=
  let (sign, body) : Rat × List Char :=
    match l with
    | '-' :: rest => ((-1 : Rat), rest)
    | rest => ((1 : Rat), rest)
  let intPart := body.takeWhile (·.isDigit)
  let rest := body.dropWhile (·.isDigit)
  if intPart = [] then none
  else
    let (fracPart, rest2) : List Char × List Char :=
      match rest with
      | '.' :: r =>
        if r.takeWhile (·.isDigit) = [] then ([], '.' :: r)
        else (r.takeWhile (·.isDigit), r.dropWhile (·.isDigit))
      | r => ([], r)
    let intVal : Nat := intPart.foldl (fun a c => a * 10 + (c.toNat - 48)) 0
    let fracVal : Nat := fracPart.foldl (fun a c => a * 10 + (c.toNat - 48)) 0
    some (sign * ((intVal : Rat) + (fracVal : Rat) / ((10 : Rat) ^ fracPart.length)), rest2)

mutual

def parseJsonVal : Nat → List Char → Option (JsVal × List Char)
  | 0, _ => none
  | _ + 1, [] => none
  | fuel + 1, l =>
    match l with
    | '"' :: rest => (parseJsonString rest).map (fun p => (.str p.1, p.2))
    | '{' :: rest => parseJsonObj fuel (skipWs rest) []
    | '[' :: rest => parseJsonArr fuel (skipWs rest) []
    | 't' :: 'r' :: 'u' :: 'e' :: rest => some (.bool true, rest)
    | 'f' :: 'a' :: 'l' :: 's' :: 'e' :: rest => some (.bool false, rest)
    | 'n' :: 'u' :: 'l' :: 'l' :: rest => some (.null, rest)
    | _ => (parseJsonNumber l).map (fun p => (.num p.1, p.2))

def parseJsonObj : Nat → List Char → List (String × JsVal) →
    Option (JsVal × List Char)
  | 0, _, _ => none
  | _ + 1, '}' :: rest, acc => some (.obj acc.reverse, rest)
  | fuel + 1, '"' :: rest, acc =>
    match parseJsonString rest with
    | none => none
    | some (key, r1) =>
      match skipWs r1 with
      | ':' :: r2 =>
        match parseJsonVal fuel (skipWs r2) with
        | none => none
        | some (v, r3) =>
          match skipWs r3 with
          | ',' :: r4 => parseJsonObj fuel (skipWs r4) ((key, v) :: acc)
          | '}' :: r4 => some (.obj ((key, v) :: acc).reverse, r4)
          | _ => none
      | _ => none
  | _ + 1, _, _ => none

def parseJsonArr : Nat → List Char → List JsVal → Option (JsVal × List Char)
  | 0, _, _ => none
  | _ + 1, ']' :: rest, acc => some (.arr acc.reverse, rest)
  | fuel + 1, l, acc =>
    match parseJsonVal fuel l with
    | none => none
    | some (v, r1) =>
      match skipWs r1 with
      | ',' :: r2 => parseJsonArr fuel (skipWs r2) (v :: acc)
      | ']' :: r2 => some (.arr (v :: acc).reverse, r2)
      | _ => none

end

/-- `JSON.parse`: `none` models a thrown `SyntaxError`. -/
def jsonParse (s : String) : Option JsVal :=
  match parseJsonVal (s.length + 1) (skipWs s.data) with
  | some (v, rest) => if skipWs rest = [] then some v else none
  | none => none

/-! ## Domain entity types

From `domain/entity/nutrition-analysis.entity.ts` and
`domain/service/nutrition-analyzer.service.ts`. -/

/-- `portion: 'alta' | 'media' | 'baja'`. -/
inductive Portion where
  | alta
  | media
  | baja
deriving DecidableEq, Repr

structure NutritionalCategoryInfo where
  present : Bool
  portion : Portion
  confidence : Rat
deriving DecidableEq, Repr

structure NutritionalCategories where
  vegetables : NutritionalCategoryInfo
  fruits : NutritionalCategoryInfo
  proteins : NutritionalCategoryInfo
  sugars : NutritionalCategoryInfo
  processedFoods : NutritionalCategoryInfo
deriving DecidableEq, Repr

structure CaloriesRange where
  min : Rat
  max : Rat
deriving DecidableEq, Repr

structure CalorieInfo where
  totalCalories : Rat
  caloriesRange : CaloriesRange
  confidence : Rat
deriving DecidableEq, Repr

structure NutritionAnalysisResult where
  calories : CalorieInfo
  nutritionalCategories : NutritionalCategories
  analysisNotes : String
deriving DecidableEq, Repr

/-- `NutritionAnalysis` entity (extends `BaseEntity`, which carries
`id`, `createdAt`, `updatedAt`). -/
structure NutritionAnalysis where
  id : String
  createdAt : Time
  updatedAt : Time
  imageUrl : String
  extractedDateTime : Option Time
  calories : CalorieInfo
  nutritionalCategories : NutritionalCategories
  analysisNotes : String
  notionPageId : Option String
deriving DecidableEq, Repr

/-! ## OpenAI nutrition analyzer service

From `infrastructure/service/openai-nutrition-analyzer.service.ts` and
the `TemplateService` (`infrastructure/service/template.service.ts`). -/

/-- `getFallbackAnalysis`. -/
def getFallbackAnalysis : NutritionAnalysisResult :=
  let defaultCategory : NutritionalCategoryInfo :=
    { present := false, portion := .baja, confidence := 1/10 }
  { calories :=
      { totalCalories := 0
        caloriesRange := { min := 0, max := 0 }
        confidence := 1/10 }
    nutritionalCategories :=
      { vegetables := defaultCategory
        fruits := defaultCategory
        proteins := defaultCategory
        sugars := defaultCategory
        processedFoods := defaultCategory }
    analysisNotes := "No se pudo completar el análisis nutricional. Por favor, intente con una imagen más clara o verifique la conectividad con OpenAI." }

/-- `validatePortion`: strict string comparison against the three
levels, defaulting to `baja`. -/
def validatePortion (portion : JsVal) : Portion :=
  match portion with
  | .str "alta" => .alta
  | .str "media" => .media
  | .str "baja" => .baja
  | _ => .baja

/-- `validateCategoryInfo`:
`present: Boolean(categoryData?.present) || false`,
`portion: validatePortion(categoryData?.portion)`,
`confidence: Math.max(0, Math.min(1, Number(categoryData?.confidence) || 0.5))`. -/
def validateCategoryInfo (categoryData : JsVal) : NutritionalCategoryInfo :=
  { present := jsTruthy (jsGet categoryData "present") || false
    portion := validatePortion (jsGet categoryData "portion")
    confidence := clamp01 (jsNumOr (jsToNumber (jsGet categoryData "confidence")) (1/2)) }

/-- The regex match `content.match(/\x7b[\s\S]*\x7d/)`: greedy, so the
candidate runs from the first opening brace to the last closing brace
of the whole text; no match when no closing brace follows an opening
brace. -/
def extractJsonCandidate (content : String) : Option String :=
  let l := content.data
  let rest := l.dropWhile (· ≠ '{')
  match rest with
  | [] => none
  | _ =>
    let core := (rest.reverse.dropWhile (· ≠ '}')).reverse
    if core = [] then none else some (String.mk core)

/-- The result-construction half of `parseOpenAIResponse`, applied to
a successfully parsed object that survived the key check. -/
def buildParsedResult (parsedData : JsVal) : NutritionAnalysisResult :=
  let cats := jsGet parsedData "nutritionalCategories"
  let cal := jsGet parsedData "calories"
  let notes := jsGet parsedData "analysisNotes"
  { calories :=
      { totalCalories := jsNumOr (jsToNumber (jsGet cal "totalCalories")) 0
        caloriesRange :=
          { min := jsNumOr (jsToNumber (jsGet (jsGet cal "caloriesRange") "min")) 0
            max := jsNumOr (jsToNumber (jsGet (jsGet cal "caloriesRange") "max")) 0 }
        confidence := clamp01 (jsNumOr (jsToNumber (jsGet cal "confidence")) (1/2)) }
    nutritionalCategories :=
      { vegetables := validateCategoryInfo (jsGet cats "vegetables")
        fruits := validateCategoryInfo (jsGet cats "fruits")
        proteins := validateCategoryInfo (jsGet cats "proteins")
        sugars := validateCategoryInfo (jsGet cats "sugars")
        processedFoods := validateCategoryInfo (jsGet cats "processedFoods") }
    analysisNotes :=
      jsToString (if jsTruthy notes then notes else .str "Análisis completado") }

/-- `parseOpenAIResponse`: extract the regex candidate, `JSON.parse`
it, require the three top-level values to be truthy, coerce; every
failure path returns the fallback via the internal catch. -/
def parseOpenAIResponse (content : String) : NutritionAnalysisResult :=
  match extractJsonCandidate content with
  | none => getFallbackAnalysis
  | some jsonStr =>
    match jsonParse jsonStr with
    | none => getFallbackAnalysis
    | some parsedData =>
      if jsTruthy (jsGet parsedData "calories")
          && jsTruthy (jsGet parsedData "nutritionalCategories")
          && jsTruthy (jsGet parsedData "analysisNotes") then
        buildParsedResult parsedData
      else getFallbackAnalysis

/-- The failure condition of `parseOpenAIResponse`: no regex match, a
JSON parse error, or a falsy top-level value — each raises inside the
inner try, which answers with the fallback. -/
def parseOpenAIResponseFails (content : String) : Bool :=
  match extractJsonCandidate content with
  | none => true
  | some jsonStr =>
    match jsonParse jsonStr with
    | none => true
    | some parsedData =>
      !(jsTruthy (jsGet parsedData "calories")
        && jsTruthy (jsGet parsedData "nutritionalCategories")
        && jsTruthy (jsGet parsedData "analysisNotes"))

/-- Character-level scan behind `jsReplaceFirst`: replace the first
occurrence of `pat`, leave the text unchanged when `pat` does not
occur. -/
def replaceFirstChars (pat repl : List Char) : List Char → List Char
  | [] => []
  | c :: rest =>
    if pat.isPrefixOf (c :: rest) then repl ++ (c :: rest).drop pat.length
    else c :: replaceFirstChars pat repl rest

/-- JS `String.prototype.replace` with a string pattern: replaces only
the first occurrence. -/
def jsReplaceFirst (s pat repl : String) : String :=
  String.mk (replaceFirstChars pat.data repl.data s.data)

/-- `TemplateService.getNutritionAnalysisPrompt`: the loaded template
(a constructor-time file read, passed here as a parameter) with the
two placeholders substituted. -/
def getNutritionAnalysisPrompt (template timeContext infoContext : String) : String :=
  jsReplaceFirst (jsReplaceFirst template "\x7b\x7btimeContext\x7d\x7d" timeContext)
    "\x7b\x7binfoContext\x7d\x7d" infoContext

/-- A decimal digit character. -/
def digitChar : Nat → Char
  | 0 => '0'
  | 1 => '1'
  | 2 => '2'
  | 3 => '3'
  | 4 => '4'
  | 5 => '5'
  | 6 => '6'
  | 7 => '7'
  | 8 => '8'
  | _ => '9'

/-- Decimal rendering of a count, as JS template interpolation
produces it. -/
def natToDecimalAux : Nat → Nat → List Char → List Char
  | 0, _, acc => acc
  | fuel + 1, n, acc =>
    if n < 10 then digitChar n :: acc
    else natToDecimalAux fuel (n / 10) (digitChar (n % 10) :: acc)

def natToDecimal (n : Nat) : String := String.mk (natToDecimalAux (n + 1) n [])

/-- The same-meal joint-analysis statement of the multi-image
instruction. -/
def sameMealMarker : String :=
  "DIFERENTES PLATOS O ELEMENTOS de una MISMA COMIDA"

/-- The multi-image prefix of
`TemplateService.getMultipleImagesNutritionAnalysisPrompt`. -/
def multipleImagesPrefix (imageCount : Nat) : String :=
  "IMPORTANTE: Estoy proporcionando " ++ natToDecimal imageCount ++
  " imágenes que representan DIFERENTES PLATOS O ELEMENTOS de una MISMA COMIDA. \nAnaliza TODAS las imágenes en conjunto y proporciona un análisis nutricional COMBINADO que incluya todos los alimentos mostrados en todas las imágenes.\nLas " ++
  natToDecimal imageCount ++ " imágenes son parte de la misma comida/sesión alimentaria.\n\n"

/-- `TemplateService.getMultipleImagesNutritionAnalysisPrompt`. -/
def getMultipleImagesNutritionAnalysisPrompt
    (template : String) (imageCount : Nat) (timeContext infoContext : String) : String :=
  jsReplaceFirst
    (jsReplaceFirst (multipleImagesPrefix imageCount ++ template)
      "\x7b\x7btimeContext\x7d\x7d" timeContext)
    "\x7b\x7binfoContext\x7d\x7d" infoContext

/-- One element of the `images` argument of
`analyzeImagesNutrition` (`imageBuffer` stands for its base64 text). -/
structure ImageItem where
  imageBuffer : String
  imageUrl : String
deriving DecidableEq, Repr

/-- What `openai.chat.completions.create` does on this call: throw,
return a message without content, or return content. -/
inductive ModelOutcome where
  | throws (msg : String)
  | respondsNone
  | responds (content : String)
deriving DecidableEq, Repr

/-- One request sent to the model: the text part followed by one
image part per image, in order. -/
structure ModelRequest where
  prompt : String
  imageUrls : List String
deriving DecidableEq, Repr

/-- `extractedDateTime ? "Las imágenes fueron tomadas el ... a las
...." : ''` (locale rendering is simplified to the numeric time). -/
def renderTimeContext : Option Time → String
  | some t => "Las imágenes fueron tomadas el " ++ toString t ++ " a las " ++ toString t ++ "."
  | none => ""

/-- `additionalInfo ? "Información adicional de contexto: ..." : ''`. -/
def renderInfoContext (additionalInfo : String) : String :=
  if additionalInfo ≠ "" then "Información adicional de contexto: " ++ additionalInfo
  else ""

/-- The prompt chosen by `analyzeImagesNutrition` for a given image
count. -/
def promptForImages (template : String) (n : Nat)
    (timeContext infoContext : String) : String :=
  if n > 1 then getMultipleImagesNutritionAnalysisPrompt template n timeContext infoContext
  else getNutritionAnalysisPrompt template timeContext infoContext

/-- The single request body assembled by `analyzeImagesNutrition`:
the chosen prompt as text part, then one high-detail data-URL image
part per image, in order. -/
def builtModelRequest (template : String) (images : List ImageItem)
    (extractedDateTime : Option Time) (additionalInfo : String) : ModelRequest :=
  let base64Images := images.map (·.imageBuffer)
  let timeContext := renderTimeContext extractedDateTime
  let infoContext := renderInfoContext additionalInfo
  { prompt := promptForImages template images.length timeContext infoContext
    imageUrls := base64Images.map (fun b => "data:image/jpeg;base64," ++ b) }

/-- `analyzeImagesNutrition`.  Returns the result together with the
list of model requests issued (the code calls
`openai.chat.completions.create` exactly once, inside the `try`; the
surrounding catch converts every failure into the fallback). -/
def analyzeImagesNutrition (template : String) (outcome : ModelOutcome)
    (images : List ImageItem) (extractedDateTime : Option Time)
    (additionalInfo : String) : NutritionAnalysisResult × List ModelRequest :=
  let request := builtModelRequest template images extractedDateTime additionalInfo
  let result :=
    match outcome with
    | .throws _ => getFallbackAnalysis
    | .respondsNone => getFallbackAnalysis
    | .responds content => parseOpenAIResponse content
  (result, [request])

/-! ## In-memory analysis store

From `NutritionAnalysisRepositoryImpl`
(`infrastructure/repository/notion.repository.ts`).  JS `Map`s are
modelled as association lists in insertion order: `set` of an existing
key updates it in place, `set` of a new key appends. -/

def mapGet : List (String × β) → String → Option β
  | [], _ => none
  | (k', v') :: rest, k => if k' = k then some v' else mapGet rest k

def mapSet : List (String × β) → String → β → List (String × β)
  | [], k, v => [(k, v)]
  | (k', v') :: rest, k, v =>
    if k' = k then (k, v) :: rest else (k', v') :: mapSet rest k v

/-- A stored `NutritionAnalysisRecord`.  The TS record keeps
`calories` and `nutritionalCategories` as `JSON.stringify` text and
the dates as ISO strings; both round trips are lossless for these
value shapes, so the fields are kept structured here. -/
structure NutritionAnalysisRecord where
  id : String
  imageUrl : String
  extractedDateTime : Option Time
  calories : CalorieInfo
  nutritionalCategories : NutritionalCategories
  analysisNotes : String
  notionPageId : Option String
  createdAt : Time
  updatedAt : Time
deriving DecidableEq, Repr

structure AnalysisStore where
  inMemoryStore : List (String × NutritionAnalysisRecord)
  pageIdIndex : List (String × String)
deriving DecidableEq, Repr

def AnalysisStore.empty : AnalysisStore := { inMemoryStore := [], pageIdIndex := [] }

/-- The record built at the top of `save`. -/
def toRecord (analysis : NutritionAnalysis) : NutritionAnalysisRecord :=
  { id := analysis.id
    imageUrl := analysis.imageUrl
    extractedDateTime := analysis.extractedDateTime
    calories := analysis.calories
    nutritionalCategories := analysis.nutritionalCategories
    analysisNotes := analysis.analysisNotes
    notionPageId := analysis.notionPageId
    createdAt := analysis.createdAt
    updatedAt := analysis.updatedAt }

/-- `mapToEntity` (the `JSON.parse` calls on record fields cannot fail
on records produced by `save`, so the catch arm is unreachable; the
`Option` mirrors its presence). -/
def mapToEntity (record : NutritionAnalysisRecord) : Option NutritionAnalysis :=
  some
    { id := record.id
      createdAt := record.createdAt
      updatedAt := record.updatedAt
      imageUrl := record.imageUrl
      extractedDateTime := record.extractedDateTime
      calories := record.calories
      nutritionalCategories := record.nutritionalCategories
      analysisNotes := record.analysisNotes
      notionPageId := record.notionPageId }

/-- `save`: insert by internal id, then update the pageId index when a
`notionPageId` is present; returns the argument unchanged. -/
def AnalysisStore.save (st : AnalysisStore) (analysis : NutritionAnalysis) :
    AnalysisStore × NutritionAnalysis :=
  let st' : AnalysisStore :=
    { inMemoryStore := mapSet st.inMemoryStore analysis.id (toRecord analysis)
      pageIdIndex :=
        match analysis.notionPageId with
        | some p => mapSet st.pageIdIndex p analysis.id
        | none => st.pageIdIndex }
  (st', analysis)

/-- `findById`. -/
def AnalysisStore.findById (st : AnalysisStore) (id : String) :
    Option NutritionAnalysis :=
  match mapGet st.inMemoryStore id with
  | none => none
  | some record => mapToEntity record

/-- `findByNotionPageId`: secondary-index lookup then `findById`. -/
def AnalysisStore.findByNotionPageId (st : AnalysisStore) (notionPageId : String) :
    Option NutritionAnalysis :=
  match mapGet st.pageIdIndex notionPageId with
  | none => none
  | some analysisId => st.findById analysisId

/-- `findAll`: values in insertion order, stably sorted most recent
`createdAt` first (JS `Array.prototype.sort` is stable), sliced
`[offset, offset+limit)`, then mapped to entities. -/
def AnalysisStore.findAll (st : AnalysisStore) (offset limit : Nat) :
    List NutritionAnalysis :=
  let sorted := (st.inMemoryStore.map (·.2)).insertionSort
    (fun a b => b.createdAt ≤ a.createdAt)
  ((sorted.drop offset).take limit).filterMap mapToEntity

/-- `findByDateRange`: inclusive bounds on the capture time when
present, else the creation time. -/
def AnalysisStore.findByDateRange (st : AnalysisStore) (startDate endDate : Time) :
    List NutritionAnalysis :=
  (st.inMemoryStore.map (·.2)).filterMap (fun record =>
    let recordDate := record.extractedDateTime.getD record.createdAt
    if startDate ≤ recordDate ∧ recordDate ≤ endDate then mapToEntity record
    else none)

/-! ## Orchestration use case

From `application/use-case/analyze-image-nutrition.use-case.ts`.  The
use case is written against its three injected collaborators; they
appear here as a `Deps` record (with `Except` for `throw`), and the
analysis-repository state is a type parameter so the real store can be
plugged in.  `uuidv4()` and `new Date()` are per-record inputs of the
job. -/

/-- The bundle returned by `notionRepository.getAllImagesFromPage`. -/
structure NotionImageDataBundle where
  images : List ImageItem
  extractedDateTime : Option Time
  additionalInfo : String
deriving DecidableEq, Repr

/-- `NotionUpdateData` (domain repository interface). -/
structure NotionUpdateData where
  pageId : String
  calories : Rat
  nutrients : List String
  analysisNotes : String
  extractedDateTime : Option Time
deriving DecidableEq, Repr

/-- `AnalyzeNutritionResponseDto`. -/
structure ResponseDto where
  id : String
  imageUrl : String
  extractedDateTime : Option Time
  calories : CalorieInfo
  nutritionalCategories : NutritionalCategories
  analysisNotes : String
  notionPageId : Option String
  createdAt : Time
  updatedAt : Time
deriving DecidableEq, Repr

/-- `mapToDto`. -/
def mapToDto (analysis : NutritionAnalysis) : ResponseDto :=
  { id := analysis.id
    imageUrl := analysis.imageUrl
    extractedDateTime := analysis.extractedDateTime
    calories := analysis.calories
    nutritionalCategories := analysis.nutritionalCategories
    analysisNotes := analysis.analysisNotes
    notionPageId := analysis.notionPageId
    createdAt := analysis.createdAt
    updatedAt := analysis.updatedAt }

/-- Observable calls the use case makes while processing one page. -/
inductive UseCaseEvent where
  | analyzeCalled
  | saveCalled
deriving DecidableEq, Repr

/-- The injected collaborators of `AnalyzeImageNutritionUseCase`,
with the analysis-repository state threaded through explicitly. -/
structure Deps (σ : Type) where
  findByNotionPageId : σ → String → Except String (Option NutritionAnalysis)
  save : σ → NutritionAnalysis → Except String (σ × NutritionAnalysis)
  getAllImagesFromPage : String → Except String (Option NotionImageDataBundle)
  analyzeImages : List ImageItem → Option Time → String →
    Except String NutritionAnalysisResult
  updatePage : NotionUpdateData → Except String Bool

/-- One iteration's inputs: the page id together with the values of
`uuidv4()` and `new Date()` for that iteration. -/
structure PageJob where
  pageId : String
  uuid : String
  now : Time
deriving DecidableEq, Repr

def portionLabel : Portion → String
  | .alta => "alta"
  | .media => "media"
  | .baja => "baja"

/-- The `presentCategories` list built before the Notion update. -/
def presentCategories (categories : NutritionalCategories) : List String :=
  (if categories.vegetables.present then
    ["Verduras (" ++ portionLabel categories.vegetables.portion ++ ")"] else []) ++
  (if categories.fruits.present then
    ["Frutas (" ++ portionLabel categories.fruits.portion ++ ")"] else []) ++
  (if categories.proteins.present then
    ["Proteínas (" ++ portionLabel categories.proteins.portion ++ ")"] else []) ++
  (if categories.sugars.present then
    ["Azúcares (" ++ portionLabel categories.sugars.portion ++ ")"] else []) ++
  (if categories.processedFoods.present then
    ["Procesados (" ++ portionLabel categories.processedFoods.portion ++ ")"] else [])

/-- The combined notes for a multi-image record. -/
def builtAnalysisNotes (bundle : NotionImageDataBundle)
    (analysisResult : NutritionAnalysisResult) : String :=
  if bundle.images.length > 1 then
    "Análisis combinado de " ++ natToDecimal bundle.images.length ++
      " imágenes: " ++ analysisResult.analysisNotes
  else analysisResult.analysisNotes

/-- The `NutritionAnalysis` entity the loop constructs before saving:
`uuid`, both timestamps `now`, the first image's URL as
representative. -/
def builtAnalysis (job : PageJob) (bundle : NotionImageDataBundle)
    (img0 : ImageItem) (analysisResult : NutritionAnalysisResult) :
    NutritionAnalysis :=
  { id := job.uuid
    createdAt := job.now
    updatedAt := job.now
    imageUrl := img0.imageUrl
    extractedDateTime := bundle.extractedDateTime
    calories := analysisResult.calories
    nutritionalCategories := analysisResult.nutritionalCategories
    analysisNotes := builtAnalysisNotes bundle analysisResult
    notionPageId := some job.pageId }

/-- The Notion update payload the loop sends after saving. -/
def builtUpdateData (job : PageJob) (bundle : NotionImageDataBundle)
    (analysisResult : NutritionAnalysisResult) : NotionUpdateData :=
  let cats := presentCategories analysisResult.nutritionalCategories
  let analysisNotes := builtAnalysisNotes bundle analysisResult
  { pageId := job.pageId
    calories := analysisResult.calories.totalCalories
    nutrients := if cats.length > 0 then cats else ["Sin categorías identificadas"]
    analysisNotes := if analysisNotes ≠ "" then analysisNotes else "Sin notas adicionales"
    extractedDateTime := bundle.extractedDateTime }

/-- The body of the per-page `for` loop of `execute`.  Every `throw`
of a collaborator lands in the per-page `catch`, which skips the page
(`none`) and leaves the loop running.  The returned event list records
which collaborator calls were reached. -/
def processPage (d : Deps σ) (st : σ) (job : PageJob) :
    σ × Option ResponseDto × List UseCaseEvent :=
  match d.findByNotionPageId st job.pageId with
  | .error _ => (st, none, [])
  | .ok (some existingAnalysis) => (st, some (mapToDto existingAnalysis), [])
  | .ok none =>
    match d.getAllImagesFromPage job.pageId with
    | .error _ => (st, none, [])
    | .ok none => (st, none, [])
    | .ok (some imageData) =>
      match imageData.images with
      | [] => (st, none, [])
      | img0 :: _ =>
        match d.analyzeImages imageData.images imageData.extractedDateTime
            imageData.additionalInfo with
        | .error _ => (st, none, [.analyzeCalled])
        | .ok analysisResult =>
          match d.save st (builtAnalysis job imageData img0 analysisResult) with
          | .error _ => (st, none, [.analyzeCalled, .saveCalled])
          | .ok (st2, savedAnalysis) =>
            match d.updatePage (builtUpdateData job imageData analysisResult) with
            | .error _ => (st2, none, [.analyzeCalled, .saveCalled])
            | .ok _ => (st2, some (mapToDto savedAnalysis), [.analyzeCalled, .saveCalled])

/-- The per-page loop of `execute` over an already-discovered list of
page ids: results of completed pages are accumulated in order, skips
contribute nothing. -/
def executeLoop (d : Deps σ) (st : σ) : List PageJob → σ × List ResponseDto
  | [] => (st, [])
  | job :: rest =>
    let step := processPage d st job
    let tail := executeLoop d step.1 rest
    (tail.1, step.2.1.toList ++ tail.2)

/-! ## Notion repository

From `NotionRepositoryImpl`
(`infrastructure/repository/notion.repository.ts`): page-shaped input
data, single-image extraction, EXIF date extraction, and the
write-back property payload. -/

/-- One entry of a `files` property: `file.file?.url` and
`file.external?.url`. -/
structure NotionFile where
  name : String
  fileUrl : Option String
  externalUrl : Option String
deriving DecidableEq, Repr

/-- The property shapes the repository inspects. -/
inductive NotionPropData where
  | files (fs : List NotionFile)
  | richText (texts : List String)
  | title (texts : List String)
  | number (n : Option Rat)
  | select (name : Option String)
  | multiSelect (names : List String)
  | date (start : Option Time)
  | checkbox (b : Bool)
  | other
deriving DecidableEq, Repr

/-- Page content blocks, as far as the extraction looks at them. -/
inductive NotionBlock where
  | image (fileUrl externalUrl : Option String)
  | file (fileUrl externalUrl : Option String)
  | other
deriving DecidableEq, Repr

/-- A retrieved page: properties in `Object.entries` order, plus its
child blocks (fetched by `blocks.children.list` when needed). -/
structure NotionPage where
  id : String
  properties : List (String × NotionPropData)
  blocks : List NotionBlock
deriving DecidableEq, Repr

def NotionPage.prop (page : NotionPage) (name : String) : Option NotionPropData :=
  (page.properties.find? (fun p => p.1 = name)).map (·.2)

/-- Property existence as the code tests it
(`properties['X']` truthiness). -/
def NotionPage.hasProp (page : NotionPage) (name : String) : Bool :=
  (page.prop name).isSome

/-- `isImageFile`: the lowercased URL contains one of the image
extensions. -/
def isImageFile (url : String) : Bool :=
  [".jpg", ".jpeg", ".png", ".gif", ".webp", ".bmp"].any
    (fun ext => decide (ext.data <:+: url.toLower.data))

/-- The `Foto`-property scan: first file of the designated property,
if its URL resolves. -/
def fotoPropertyUrl (page : NotionPage) : Option String :=
  match page.prop "Foto" with
  | some (.files (file :: _)) => file.fileUrl <|> file.externalUrl
  | _ => none

/-- The fallback scan over all file-typed properties: first property
whose first file has a resolvable URL (no image check here). -/
def anyFilesPropertyUrl (page : NotionPage) : Option String :=
  (page.properties.filterMap (fun p =>
    match p.2 with
    | .files (file :: _) => file.fileUrl <|> file.externalUrl
    | _ => none)).head?

/-- The URL a single content block contributes: image blocks always,
file blocks only when the URL has an image extension. -/
def blockImageUrl : NotionBlock → Option String
  | .image fileUrl externalUrl => fileUrl <|> externalUrl
  | .file fileUrl externalUrl =>
    match fileUrl <|> externalUrl with
    | some url => if isImageFile url then some url else none
    | none => none
  | .other => none

/-- The block scan, entered only when no property produced a URL. -/
def blocksUrl (page : NotionPage) : Option String :=
  (page.blocks.filterMap blockImageUrl).head?

/-- The complete URL search of `extractImageDataFromPage`: designated
property first, then any file property, then content blocks; the
search stops at the first hit. -/
def findImageUrl (page : NotionPage) : Option String :=
  fotoPropertyUrl page <|> anyFilesPropertyUrl page <|> blocksUrl page

/-- `extractAdditionalInfo`: renders every property outside the
reserved set as a `"Name: value"` item joined by `"; "`. -/
def extractAdditionalInfo (properties : List (String × NotionPropData)) : String :=
  let reserved := ["Foto", "Hora comida", "Calories", "Calorias", "Elementos",
    "Nutrients", "Análisis alimentario", "Analysis Notes", "Notas", "Analyzed",
    "Analizado"]
  let info := properties.filterMap (fun p =>
    if reserved.contains p.1 then none
    else
      match p.2 with
      | .richText texts =>
        let text := String.intercalate " " texts
        if text.trim ≠ "" then some (p.1 ++ ": " ++ text) else none
      | .title texts =>
        let titleText := String.intercalate " " texts
        if titleText.trim ≠ "" then some ("Título: " ++ titleText) else none
      | .number (some n) => some (p.1 ++ ": " ++ toString n)
      | .select (some name) => some (p.1 ++ ": " ++ name)
      | .multiSelect (name0 :: names) =>
        some (p.1 ++ ": " ++ String.intercalate ", " (name0 :: names))
      | _ => none)
  String.intercalate "; " info

/-- The EXIF fields `exifr.parse` is asked to pick. -/
structure ExifData where
  DateTimeOriginal : Option Time
  CreateDate : Option Time
  DateTime : Option Time
  DateTimeDigitized : Option Time
deriving DecidableEq, Repr

/-- `extractImageCreationDate`: the outcome of the `exifr.parse` call
comes in as `parseResult` (`error` = the library threw, caught to
`null`; `ok none` = no EXIF data).  Field preference order exactly as
written: `DateTimeOriginal || CreateDate || DateTime ||
DateTimeDigitized`. -/
def extractImageCreationDate (parseResult : Except String (Option ExifData)) :
    Option Time :=
  match parseResult with
  | .error _ => none
  | .ok none => none
  | .ok (some exifData) =>
    exifData.DateTimeOriginal <|> exifData.CreateDate <|>
      exifData.DateTime <|> exifData.DateTimeDigitized

/-- The single-image bundle `NotionImageData` returned by the
extraction. -/
structure NotionImageData where
  imageUrl : String
  extractedDateTime : Option Time
  pageId : String
  imageBuffer : String
  additionalInfo : String
deriving DecidableEq, Repr

/-- External effects of the extraction: downloading the original
bytes, the EXIF parse on them, and the sharp re-encode. -/
structure ExtractEnv where
  download : String → Except String String
  exifParse : String → Except String (Option ExifData)
  optimize : String → Except String String

/-- `extractImageDataFromPage`: find one URL (or return `null`),
extract context, download, read the EXIF date, optimize.  Download or
optimize failures are rethrown by the outer catch (`.error`). -/
def extractImageDataFromPage (env : ExtractEnv) (page : NotionPage) :
    Except String (Option NotionImageData) :=
  match findImageUrl page with
  | none => .ok none
  | some imageUrl =>
    let additionalInfo := extractAdditionalInfo page.properties
    match env.download imageUrl with
    | .error e => .error e
    | .ok originalBuffer =>
      let extractedDateTime := extractImageCreationDate (env.exifParse originalBuffer)
      match env.optimize originalBuffer with
      | .error e => .error e
      | .ok imageBuffer =>
        .ok (some
          { imageUrl := imageUrl
            extractedDateTime := extractedDateTime
            pageId := page.id
            imageBuffer := imageBuffer
            additionalInfo := additionalInfo })

/-- The property payloads `updatePageWithNutritionAnalysis` writes. -/
inductive UpdateProp where
  | dateStart (start : Time)
  | number (n : Rat)
  | multiSelect (names : List String)
  | richText (content : String)
  | checkbox (b : Bool)
deriving DecidableEq, Repr

/-- The Elementos cleaning: first 10 nutrients, comma-truncated and
trimmed for multi-select compatibility. -/
def cleanNutrients (nutrients : List String) : List String :=
  (nutrients.take 10).map (fun nutrient =>
    ((nutrient.splitOn ",").headD nutrient).trim)

/-- The `updateProps` object assembled by
`updatePageWithNutritionAnalysis` from the target page's existing
properties; only properties present on the page are written, and the
meal-time field falls back to the current time when no EXIF date was
extracted. -/
def buildUpdateProps (page : NotionPage) (updateData : NotionUpdateData)
    (now : Time) : List (String × UpdateProp) :=
  (if page.hasProp "Hora comida" then
    [("Hora comida", UpdateProp.dateStart (updateData.extractedDateTime.getD now))]
  else []) ++
  (if page.hasProp "Calories" || page.hasProp "Calorias" then
    [(if page.hasProp "Calories" then "Calories" else "Calorias",
      UpdateProp.number updateData.calories)]
  else []) ++
  (if page.hasProp "Elementos" then
    [("Elementos", UpdateProp.multiSelect (cleanNutrients updateData.nutrients))]
  else []) ++
  (if page.hasProp "Análisis alimentario" then
    [("Análisis alimentario", UpdateProp.richText (updateData.analysisNotes.take 2000))]
  else []) ++
  (if page.hasProp "Analysis Notes" || page.hasProp "Notas" then
    [(if page.hasProp "Analysis Notes" then "Analysis Notes" else "Notas",
      UpdateProp.richText (updateData.analysisNotes.take 2000))]
  else []) ++
  (if page.hasProp "Analyzed" || page.hasProp "Analizado" then
    [(if page.hasProp "Analyzed" then "Analyzed" else "Analizado",
      UpdateProp.checkbox true)]
  else [])

/-- `updatePageWithNutritionAnalysis`: retrieve the page (may throw),
assemble the payload, send it when non-empty; any throw is caught and
reported as `false`. -/
def updatePageWithNutritionAnalysis
    (retrievePage : Except String NotionPage)
    (sendUpdate : List (String × UpdateProp) → Except String Unit)
    (updateData : NotionUpdateData) (now : Time) : Bool :=
  match retrievePage with
  | .error _ => false
  | .ok page =>
    let updateProps := buildUpdateProps page updateData now
    if updateProps.length > 0 then
      match sendUpdate updateProps with
      | .error _ => false
      | .ok _ => true
    else true

/-! ## Orchestration instantiation and invariants -/

/-- The use case wired against the real in-memory store (whose
operations never throw) and the external Notion/OpenAI collaborators
as explicit behaviors. -/
def storeDeps
    (getAllImages : String → Except String (Option NotionImageDataBundle))
    (analyze : List ImageItem → Option Time → String →
      Except String NutritionAnalysisResult)
    (updatePage : NotionUpdateData → Except String Bool) : Deps AnalysisStore :=
  { findByNotionPageId := fun st p => .ok (st.findByNotionPageId p)
    save := fun st a => .ok (st.save a)
    getAllImagesFromPage := getAllImages
    analyzeImages := analyze
    updatePage := updatePage }

/-- Number of persisted records carrying a given source record id. -/
def cardAt (st : AnalysisStore) (p : String) : Nat :=
  (st.inMemoryStore.filter (fun kv => decide (kv.2.notionPageId = some p))).length

/-- Store well-formedness: at most one record per source page id, the
secondary index resolves to a record with the matching page id, and
every record with a page id is reachable through the index. -/
def StoreWF (st : AnalysisStore) : Prop :=
  (∀ p, cardAt st p ≤ 1)
  ∧ (∀ p id, mapGet st.pageIdIndex p = some id →
      ∃ r, mapGet st.inMemoryStore id = some r ∧ r.notionPageId = some p)
  ∧ (∀ kv ∈ st.inMemoryStore, ∀ p, kv.2.notionPageId = some p →
      mapGet st.pageIdIndex p ≠ none)

/-- Record `j`'s processing reaches a collaborator that throws: no
prior result exists, and then extraction throws, or analysis throws,
or persistence throws, or write-back throws. -/
def processingThrowsAt (d : Deps σ) (st : σ) (j : PageJob) : Prop :=
  d.findByNotionPageId st j.pageId = .ok none
  ∧ ((∃ e, d.getAllImagesFromPage j.pageId = .error e)
    ∨ (∃ bundle img0 irest,
        d.getAllImagesFromPage j.pageId = .ok (some bundle)
        ∧ bundle.images = img0 :: irest
        ∧ ((∃ e, d.analyzeImages bundle.images bundle.extractedDateTime
              bundle.additionalInfo = .error e)
          ∨ (∀ res, d.analyzeImages bundle.images bundle.extractedDateTime
                bundle.additionalInfo = .ok res →
              ((∃ e, d.save st (builtAnalysis j bundle img0 res) = .error e)
                ∨ (∀ st2 saved,
                    d.save st (builtAnalysis j bundle img0 res) = .ok (st2, saved) →
                    ∃ e, d.updatePage (builtUpdateData j bundle res) = .error e))))))

/-- A concrete dependency set exercising the orchestration: record
"J"'s extraction throws, every other record yields one image. -/
def demoDeps : Deps Unit :=
  { findByNotionPageId := fun _ _ => .ok none
    save := fun st a => .ok (st, a)
    getAllImagesFromPage := fun p =>
      if p = "J" then .error "boom"
      else .ok (some
        { images := [{ imageBuffer := "b", imageUrl := "u" }]
          extractedDateTime := none
          additionalInfo := "" })
    analyzeImages := fun _ _ _ => .ok getFallbackAnalysis
    updatePage := fun _ => .ok true }

/-! ## Spec-side definitions

Definitions written from the claims' wording, for refutation or
refinement against the implementation definitions above. -/

/-- Modelled from the claim (C5 / spec §4.2 step 5): confidence is
clamped whenever it is numeric, and defaults to `0.5` only when it is
missing or non-numeric. -/
def claimValidateCategoryInfo (categoryData : JsVal) : NutritionalCategoryInfo :=
  { present := jsTruthy (jsGet categoryData "present")
    portion := validatePortion (jsGet categoryData "portion")
    confidence :=
      match jsToNumber (jsGet categoryData "confidence") with
      | some q => clamp01 q
      | none => 1/2 }

/-- The nearby statement that does hold (C5 amended): a numeric
confidence of exactly `0` is falsy in JS, so it also falls back to
`0.5`; every other numeric value is clamped. -/
def amendedValidateCategoryInfo (categoryData : JsVal) : NutritionalCategoryInfo :=
  { present := jsTruthy (jsGet categoryData "present")
    portion := validatePortion (jsGet categoryData "portion")
    confidence :=
      match jsToNumber (jsGet categoryData "confidence") with
      | some q => if q = 0 then 1/2 else clamp01 q
      | none => 1/2 }

/-- Modelled from the claim (C6 / spec §4.1): gather every image
attachment — all resolvable files of the primary image field, then
the image-bearing entries of the remaining file-typed fields not
already captured, then the image blocks and image-extension file
blocks — in discovery order. -/
def claimGatherAllImageUrls (page : NotionPage) : List String :=
  let fotoUrls :=
    match page.prop "Foto" with
    | some (.files fs) => fs.filterMap (fun f => f.fileUrl <|> f.externalUrl)
    | _ => []
  let otherUrls :=
    (page.properties.filter (fun p => p.1 ≠ "Foto")).flatMap (fun p =>
      match p.2 with
      | .files fs =>
        (fs.filterMap (fun f => f.fileUrl <|> f.externalUrl)).filter isImageFile
      | _ => [])
  let blockUrls := page.blocks.filterMap blockImageUrl
  fotoUrls ++ otherUrls.filter (fun u => !(fotoUrls.contains u)) ++ blockUrls

/-- The image URLs an extraction outcome carries (the code's bundle
holds a single URL). -/
def extractionResultUrls : Except String (Option NotionImageData) → List String
  | .ok (some d) => [d.imageUrl]
  | _ => []

/-- All candidate URLs the code's search would consider, in search
order; the code keeps only the head. -/
def imageUrlCandidates (page : NotionPage) : List String :=
  (fotoPropertyUrl page).toList ++
  (page.properties.filterMap (fun p =>
    match p.2 with
    | .files (file :: _) => file.fileUrl <|> file.externalUrl
    | _ => none)) ++
  (page.blocks.filterMap blockImageUrl)

/-- Brace-depth scan used to model the claim's "first balanced JSON
object": starting at an opening brace, return the shortest prefix in
which the braces balance (string contents are not treated specially;
the claims' relevant texts keep braces outside string literals). -/
def balancedScan : List Char → Nat → List Char → Option (List Char)
  | [], _, _ => none
  | c :: rest, depth, acc =>
    if c = '{' then balancedScan rest (depth + 1) (c :: acc)
    else if c = '}' then
      if depth = 1 then some (c :: acc).reverse
      else balancedScan rest (depth - 1) (c :: acc)
    else balancedScan rest depth (c :: acc)

/-- Modelled from the claim (C8 / spec §4.2 step 4): the first
balanced JSON object within the text. -/
def firstBalancedObject (content : String) : Option String :=
  match content.data.dropWhile (· ≠ '{') with
  | [] => none
  | rest => (balancedScan rest 0 []).map String.mk

/-- Key existence on a parsed JS object (`'k' in obj`). -/
def jsHasKey (v : JsVal) (k : String) : Bool :=
  match v with
  | .obj fields => fields.any (fun p => p.1 = k)
  | _ => false

/-- Modelled from the claim (C8): parse failure means no first
balanced JSON object, or unparsable JSON, or one of the three
top-level keys does not exist in the object. -/
def claimParseFailure (content : String) : Bool :=
  match firstBalancedObject content with
  | none => true
  | some jsonStr =>
    match jsonParse jsonStr with
    | none => true
    | some parsedData =>
      !(jsHasKey parsedData "calories"
        && jsHasKey parsedData "nutritionalCategories"
        && jsHasKey parsedData "analysisNotes")

/-- Modelled from the claim (C7 / spec §4.1 step 5): original capture
preferred over created, over digitized, over generic modified. -/
def claimExtractImageCreationDate (parseResult : Except String (Option ExifData)) :
    Option Time :=
  match parseResult with
  | .error _ => none
  | .ok none => none
  | .ok (some exifData) =>
    exifData.DateTimeOriginal <|> exifData.CreateDate <|>
      exifData.DateTimeDigitized <|> exifData.DateTime

/-- Modelled from the claim (C2 / spec §8): the documented fallback,
written out field by field — totalCalories 0, range 0–0, calorie
confidence 0.1, all five categories absent at the lowest portion with
confidence 0.1, and the fixed cannot-be-completed notes string. -/
def fallbackTarget : NutritionAnalysisResult :=
  { calories :=
      { totalCalories := 0
        caloriesRange := { min := 0, max := 0 }
        confidence := 1/10 }
    nutritionalCategories :=
      { vegetables := { present := false, portion := .baja, confidence := 1/10 }
        fruits := { present := false, portion := .baja, confidence := 1/10 }
        proteins := { present := false, portion := .baja, confidence := 1/10 }
        sugars := { present := false, portion := .baja, confidence := 1/10 }
        processedFoods := { present := false, portion := .baja, confidence := 1/10 } }
    analysisNotes := "No se pudo completar el análisis nutricional. Por favor, intente con una imagen más clara o verifique la conectividad con OpenAI." }

/-! ## Helper lemmas -/

theorem clamp01_nonneg (q : Rat) : 0 ≤ clamp01 q := le_max_left 0 _

theorem clamp01_le_one (q : Rat) : clamp01 q ≤ 1 :=
  max_le (by norm_num) (min_le_left 1 q)

theorem clamp01_of_mem (q : Rat) (h0 : 0 ≤ q) (h1 : q ≤ 1) : clamp01 q = q := by
  unfold clamp01
  rw [min_eq_right h1, max_eq_right h0]

theorem clamp01_half : clamp01 (1/2) = 1/2 :=
  clamp01_of_mem _ (by norm_num) (by norm_num)

theorem parseOpenAIResponse_eq_fallback_of_fails (content : String)
    (h : parseOpenAIResponseFails content = true) :
    parseOpenAIResponse content = getFallbackAnalysis := by
  cases hc : extractJsonCandidate content with
  | none => simp [parseOpenAIResponse, hc]
  | some js =>
    cases hj : jsonParse js with
    | none => simp [parseOpenAIResponse, hc, hj]
    | some v =>
      simp only [parseOpenAIResponseFails, hc, hj, Bool.not_eq_true'] at h
      simp [parseOpenAIResponse, hc, hj, h]

/-! ## Claim C2 -/

/-- C2: the analysis request operation never throws: whenever the
model call throws, or the response has no content, or response
handling raises (no JSON found, JSON parse error, or a failed
structure check), the operation returns exactly the fixed fallback
result: zero calories with a zero range and confidence 0.1, all five
categories absent at the lowest portion with confidence 0.1, and the
fixed cannot-be-completed notes string. -/
theorem analyzer_never_throws_fallback (template : String)
    (images : List ImageItem) (extractedDateTime : Option Time)
    (additionalInfo msg content : String)
    (h : parseOpenAIResponseFails content = true) :
    (analyzeImagesNutrition template (.throws msg) images extractedDateTime
        additionalInfo).1 = fallbackTarget
    ∧ (analyzeImagesNutrition template .respondsNone images extractedDateTime
        additionalInfo).1 = fallbackTarget
    ∧ (analyzeImagesNutrition template (.responds content) images extractedDateTime
        additionalInfo).1 = fallbackTarget := by
  refine ⟨rfl, rfl, ?_⟩
  show parseOpenAIResponse content = _
  rw [parseOpenAIResponse_eq_fallback_of_fails content h]
  rfl

theorem analyzer_never_throws_fallback_witness :
    (analyzeImagesNutrition "template" (.throws "network down") [] none "").1
      = fallbackTarget
    ∧ (analyzeImagesNutrition "template" (.responds "sin json") [] none "").1
      = fallbackTarget :=
  let h := analyzer_never_throws_fallback "template" [] none "" "network down"
    "sin json" (by decide)
  ⟨h.1, h.2.2⟩

/-! ## Claim C5 -/

/-- C5 counterexample: a category payload whose `confidence` is the
number `0` is numeric and in range, so the claim requires the clamped
value `0`; the code's `Number(x) || 0.5` treats `0` as falsy and
yields `0.5`. -/
theorem category_coercion_zero_confidence_cex :
    validateCategoryInfo (.obj [("confidence", .num 0)])
      ≠ claimValidateCategoryInfo (.obj [("confidence", .num 0)]) := by
  intro hEq
  have h1 : (validateCategoryInfo (.obj [("confidence", .num 0)])).confidence = 1/2 := by
    show clamp01 (jsNumOr (jsToNumber (jsGet (.obj [("confidence", .num 0)]) "confidence")) (1/2)) = 1/2
    have hv : jsNumOr (jsToNumber (jsGet (.obj [("confidence", .num 0)]) "confidence")) (1/2) = 1/2 := rfl
    rw [hv, clamp01_half]
  have h2 : (claimValidateCategoryInfo (.obj [("confidence", .num 0)])).confidence = 0 := by
    show clamp01 0 = 0
    exact clamp01_of_mem 0 le_rfl (by norm_num)
  rw [hEq, h2] at h1
  norm_num at h1

/-- C5 amended: for every category payload, validation returns without
throwing a well-formed value — `present` a boolean defaulting to
false, `portion` one of the three levels defaulting to the lowest,
`confidence` in `[0,1]` — where the confidence is clamped if numeric
and nonzero and defaults to 0.5 when missing, non-numeric, or exactly
0 (JS falsiness); calorie values are coerced to numbers defaulting
to 0. -/
theorem category_coercion_totality_amended (categoryData : JsVal) :
    validateCategoryInfo categoryData = amendedValidateCategoryInfo categoryData
    ∧ 0 ≤ (validateCategoryInfo categoryData).confidence
    ∧ (validateCategoryInfo categoryData).confidence ≤ 1
    ∧ (jsGet categoryData "present" = .undefined →
        (validateCategoryInfo categoryData).present = false)
    ∧ (∀ v : JsVal, jsNumOr (jsToNumber v) 0 = (jsToNumber v).getD 0) := by
  refine ⟨?_, clamp01_nonneg _, clamp01_le_one _, ?_, ?_⟩
  · unfold validateCategoryInfo amendedValidateCategoryInfo
    simp only [Bool.or_false]
    cases h : jsToNumber (jsGet categoryData "confidence") with
    | none =>
      simp only [jsNumOr]
      norm_num [clamp01]
    | some q =>
      simp only [jsNumOr]
      by_cases hq : q = 0
      · simp only [hq, if_pos rfl]
        norm_num [clamp01]
      · simp [hq]
  · intro h
    simp [validateCategoryInfo, h, jsTruthy]
  · intro v
    cases h : jsToNumber v with
    | none => rfl
    | some q =>
      simp only [jsNumOr, Option.getD_some]
      by_cases hq : q = 0
      · simp [hq]
      · simp [hq]

theorem category_coercion_totality_amended_witness :
    validateCategoryInfo (.obj []) = amendedValidateCategoryInfo (.obj [])
    ∧ (validateCategoryInfo (.obj [])).present = false :=
  ⟨(category_coercion_totality_amended (.obj [])).1,
    (category_coercion_totality_amended (.obj [])).2.2.2.1 rfl⟩

/-! ## Claim C7 -/

/-- C7 counterexample: when only the digitized and generic modified
EXIF fields are present, the claim's precedence (digitized before
modified) picks the digitized value, but the code's
`DateTimeOriginal || CreateDate || DateTime || DateTimeDigitized`
picks the modified (`DateTime`) value. -/
theorem exif_precedence_cex :
    extractImageCreationDate (.ok (some
      { DateTimeOriginal := none, CreateDate := none,
        DateTime := some 2, DateTimeDigitized := some 1 }))
    ≠ claimExtractImageCreationDate (.ok (some
      { DateTimeOriginal := none, CreateDate := none,
        DateTime := some 2, DateTimeDigitized := some 1 })) := by
  decide

/-- C7 amended: the capture-timestamp parse prefers the original
capture field, then created, then the generic modified field, then
digitized — in that order — and missing or unparsable metadata yields
a null capture time without failing the extraction. -/
theorem exif_precedence_amended :
    (∀ msg, extractImageCreationDate (.error msg) = none)
    ∧ extractImageCreationDate (.ok none) = none
    ∧ (∀ (e : ExifData) (t : Time), e.DateTimeOriginal = some t →
        extractImageCreationDate (.ok (some e)) = some t)
    ∧ (∀ (e : ExifData) (t : Time), e.DateTimeOriginal = none →
        e.CreateDate = some t → extractImageCreationDate (.ok (some e)) = some t)
    ∧ (∀ (e : ExifData) (t : Time), e.DateTimeOriginal = none →
        e.CreateDate = none → e.DateTime = some t →
        extractImageCreationDate (.ok (some e)) = some t)
    ∧ (∀ (e : ExifData) (t : Time), e.DateTimeOriginal = none →
        e.CreateDate = none → e.DateTime = none → e.DateTimeDigitized = some t →
        extractImageCreationDate (.ok (some e)) = some t)
    ∧ (∀ e : ExifData, e.DateTimeOriginal = none → e.CreateDate = none →
        e.DateTime = none → e.DateTimeDigitized = none →
        extractImageCreationDate (.ok (some e)) = none) := by
  refine ⟨fun msg => rfl, rfl, ?_, ?_, ?_, ?_, ?_⟩
  · intro e t h1
    simp [extractImageCreationDate, h1]
  · intro e t h1 h2
    simp [extractImageCreationDate, h1, h2]
  · intro e t h1 h2 h3
    simp [extractImageCreationDate, h1, h2, h3]
  · intro e t h1 h2 h3 h4
    simp [extractImageCreationDate, h1, h2, h3, h4]
  · intro e h1 h2 h3 h4
    simp [extractImageCreationDate, h1, h2, h3, h4]

theorem exif_precedence_amended_witness :
    extractImageCreationDate (.ok (some
      { DateTimeOriginal := none, CreateDate := none,
        DateTime := some 9, DateTimeDigitized := some 4 })) = some 9 :=
  exif_precedence_amended.2.2.2.2.1 _ 9 rfl rfl rfl

/-! ## Map lemmas for the store -/

theorem mapGet_mapSet_self (m : List (String × β)) (k : String) (v : β) :
    mapGet (mapSet m k v) k = some v := by
  induction m with
  | nil => simp [mapSet, mapGet]
  | cons hd tl ih =>
    obtain ⟨k0, v0⟩ := hd
    by_cases h : k0 = k
    · simp [mapSet, h, mapGet]
    · simpa [mapSet, h, mapGet] using ih

theorem mapGet_mapSet_ne (m : List (String × β)) (k k' : String) (v : β)
    (h : k' ≠ k) : mapGet (mapSet m k v) k' = mapGet m k' := by
  induction m with
  | nil => simp [mapSet, mapGet, Ne.symm h]
  | cons hd tl ih =>
    obtain ⟨k0, v0⟩ := hd
    by_cases h0 : k0 = k
    · subst h0
      simp [mapSet, mapGet, Ne.symm h]
    · by_cases h1 : k0 = k'
      · simp [mapSet, h0, mapGet, h1, h]
      · simpa [mapSet, h0, mapGet, h1] using ih

theorem mapSet_fresh_append (m : List (String × β)) (k : String) (v : β)
    (h : mapGet m k = none) : mapSet m k v = m ++ [(k, v)] := by
  induction m with
  | nil => simp [mapSet]
  | cons hd tl ih =>
    obtain ⟨k0, v0⟩ := hd
    by_cases h0 : k0 = k
    · simp [mapGet, h0] at h
    · simp only [mapGet, if_neg h0] at h
      simp [mapSet, h0, ih h]

theorem mem_of_mapGet_some (m : List (String × β)) (k : String) (v : β)
    (h : mapGet m k = some v) : (k, v) ∈ m := by
  induction m with
  | nil => simp [mapGet] at h
  | cons hd tl ih =>
    obtain ⟨k0, v0⟩ := hd
    by_cases h0 : k0 = k
    · simp [mapGet, h0] at h
      simp [h0, h]
    · simp only [mapGet, if_neg h0] at h
      exact List.mem_cons_of_mem _ (ih h)

/-- Membership in `findAll` with offset 0 and the full store length,
from a successful primary-map lookup. -/
theorem mem_findAll_of_mapGet (st : AnalysisStore) (k : String)
    (r : NutritionAnalysisRecord) (a : NutritionAnalysis)
    (h : mapGet st.inMemoryStore k = some r) (he : mapToEntity r = some a) :
    a ∈ st.findAll 0 st.inMemoryStore.length := by
  have hlen : ((st.inMemoryStore.map (·.2)).insertionSort
      (fun a b => b.createdAt ≤ a.createdAt)).length = st.inMemoryStore.length := by
    rw [List.length_insertionSort, List.length_map]
  show a ∈ ((((st.inMemoryStore.map (·.2)).insertionSort
      (fun a b => b.createdAt ≤ a.createdAt)).drop 0).take
        st.inMemoryStore.length).filterMap mapToEntity
  rw [List.drop_zero, List.take_of_length_le (le_of_eq hlen)]
  apply List.mem_filterMap.mpr
  refine ⟨r, ?_, he⟩
  apply (List.perm_insertionSort _ _).mem_iff.mpr
  exact List.mem_map.mpr ⟨(k, r), mem_of_mapGet_some _ _ _ h, rfl⟩

theorem mapGet_append (l1 l2 : List (String × β)) (k : String) :
    mapGet (l1 ++ l2) k = (mapGet l1 k).or (mapGet l2 k) := by
  induction l1 with
  | nil => simp [mapGet]
  | cons hd tl ih =>
    obtain ⟨k0, v0⟩ := hd
    by_cases h : k0 = k
    · simp [mapGet, h]
    · simpa [mapGet, h] using ih

/-! ## Claim C9 -/

/-- C9: the meal-time field appears in the write-back payload exactly
when the target page has it; the written value is the extracted
capture timestamp when one exists and the current time otherwise, and
a page without the field gets no meal-time write. -/
theorem meal_time_write_back (page : NotionPage) (updateData : NotionUpdateData)
    (now : Time) :
    mapGet (buildUpdateProps page updateData now) "Hora comida" =
      (if page.hasProp "Hora comida" then
        some (UpdateProp.dateStart (updateData.extractedDateTime.getD now))
      else none)
    ∧ (updateData.extractedDateTime = none →
        updateData.extractedDateTime.getD now = now)
    ∧ (∀ t, updateData.extractedDateTime = some t →
        updateData.extractedDateTime.getD now = t) := by
  refine ⟨?_, fun h => by rw [h]; rfl, fun t h => by rw [h]; rfl⟩
  unfold buildUpdateProps
  rw [mapGet_append, mapGet_append, mapGet_append, mapGet_append, mapGet_append]
  have e2 : mapGet (if page.hasProp "Calories" || page.hasProp "Calorias" then
      [(if page.hasProp "Calories" then "Calories" else "Calorias",
        UpdateProp.number updateData.calories)] else []) "Hora comida" = none := by
    split_ifs <;> simp [mapGet]
  have e3 : mapGet (if page.hasProp "Elementos" then
      [("Elementos", UpdateProp.multiSelect (cleanNutrients updateData.nutrients))]
      else []) "Hora comida" = none := by
    split_ifs <;> simp [mapGet]
  have e4 : mapGet (if page.hasProp "Análisis alimentario" then
      [("Análisis alimentario",
        UpdateProp.richText (updateData.analysisNotes.take 2000))] else [])
      "Hora comida" = none := by
    split_ifs <;> simp [mapGet]
  have e5 : mapGet (if page.hasProp "Analysis Notes" || page.hasProp "Notas" then
      [(if page.hasProp "Analysis Notes" then "Analysis Notes" else "Notas",
        UpdateProp.richText (updateData.analysisNotes.take 2000))] else [])
      "Hora comida" = none := by
    split_ifs <;> simp [mapGet]
  have e6 : mapGet (if page.hasProp "Analyzed" || page.hasProp "Analizado" then
      [(if page.hasProp "Analyzed" then "Analyzed" else "Analizado",
        UpdateProp.checkbox true)] else []) "Hora comida" = none := by
    split_ifs <;> simp [mapGet]
  rw [e2, e3, e4, e5, e6]
  cases hp : page.hasProp "Hora comida" <;> simp [mapGet]

/-! ## Claim C10 -/

/-- C10: the store never rejects a duplicate: two successive saves
with distinct internal ids and the same source record id both remain
in the primary store and both appear in the paginated find-all, while
the lookup by source record id afterwards returns only the most
recently saved result — the secondary index entry is overwritten, so
the earlier result is unreachable through that lookup. -/
theorem store_duplicate_saves (st : AnalysisStore) (a1 a2 : NutritionAnalysis)
    (p : String) (hid : a1.id ≠ a2.id)
    (h1 : a1.notionPageId = some p) (h2 : a2.notionPageId = some p) :
    mapGet (((st.save a1).1.save a2).1).inMemoryStore a1.id = some (toRecord a1)
    ∧ mapGet (((st.save a1).1.save a2).1).inMemoryStore a2.id = some (toRecord a2)
    ∧ (((st.save a1).1.save a2).1).findByNotionPageId p = some a2
    ∧ a1 ∈ (((st.save a1).1.save a2).1).findAll 0
        (((st.save a1).1.save a2).1).inMemoryStore.length
    ∧ a2 ∈ (((st.save a1).1.save a2).1).findAll 0
        (((st.save a1).1.save a2).1).inMemoryStore.length := by
  have hstore : (((st.save a1).1.save a2).1).inMemoryStore
      = mapSet (mapSet st.inMemoryStore a1.id (toRecord a1)) a2.id (toRecord a2) := rfl
  have hidx : (((st.save a1).1.save a2).1).pageIdIndex
      = mapSet (mapSet st.pageIdIndex p a1.id) p a2.id := by
    simp [AnalysisStore.save, h1, h2]
  have hg1 : mapGet (((st.save a1).1.save a2).1).inMemoryStore a1.id
      = some (toRecord a1) := by
    rw [hstore, mapGet_mapSet_ne _ _ _ _ hid, mapGet_mapSet_self]
  have hg2 : mapGet (((st.save a1).1.save a2).1).inMemoryStore a2.id
      = some (toRecord a2) := by
    rw [hstore, mapGet_mapSet_self]
  refine ⟨hg1, hg2, ?_, ?_, ?_⟩
  · unfold AnalysisStore.findByNotionPageId
    rw [hidx, mapGet_mapSet_self]
    show (match mapGet (((st.save a1).1.save a2).1).inMemoryStore a2.id with
      | none => none
      | some record => mapToEntity record) = some a2
    rw [hg2]
    rfl
  · exact mem_findAll_of_mapGet _ _ _ _ hg1 rfl
  · exact mem_findAll_of_mapGet _ _ _ _ hg2 rfl

theorem dropWhile_head_false (p : α → Bool) (l : List α) (x : α) (xs : List α)
    (h : l.dropWhile p = x :: xs) : p x = false := by
  induction l with
  | nil => simp at h
  | cons a as ih =>
    by_cases hp : p a
    · rw [List.dropWhile_cons_of_pos hp] at h
      exact ih h
    · rw [List.dropWhile_cons_of_neg hp] at h
      cases h
      simpa using hp

/-! ## Claim C8 -/

/-- Positional characterization of the regex candidate: it sits
between a brace-free prefix (no `'{'` before it) and a
close-brace-free suffix (no `'}'` after it), starts with `'{'`, and
ends with `'}'` — the first opening brace to the last closing
brace. -/
theorem extractJsonCandidate_spec (content js : String)
    (h : extractJsonCandidate content = some js) :
    ∃ pre post : List Char,
      content.data = pre ++ js.data ++ post
      ∧ (∀ ch ∈ pre, ch ≠ '{')
      ∧ (∀ ch ∈ post, ch ≠ '}')
      ∧ js.data.head? = some '{'
      ∧ js.data.getLast? = some '}' := by
  unfold extractJsonCandidate at h
  dsimp only at h
  cases hrest : content.data.dropWhile (· ≠ '{') with
  | nil => rw [hrest] at h; simp at h
  | cons c cs =>
    rw [hrest] at h
    dsimp only at h
    by_cases hcore : ((c :: cs).reverse.dropWhile (· ≠ '}')).reverse = ([] : List Char)
    · rw [if_pos hcore] at h
      simp at h
    · rw [if_neg hcore] at h
      have hjs : js.data = ((c :: cs).reverse.dropWhile (· ≠ '}')).reverse := by
        cases h
        rfl
      refine ⟨content.data.takeWhile (· ≠ '{'),
        ((c :: cs).reverse.takeWhile (· ≠ '}')).reverse, ?_, ?_, ?_, ?_, ?_⟩
      · rw [hjs]
        have hsplit : (c :: cs).reverse.takeWhile (· ≠ '}')
            ++ (c :: cs).reverse.dropWhile (· ≠ '}') = (c :: cs).reverse :=
          List.takeWhile_append_dropWhile _ _
        have hrev : ((c :: cs).reverse.dropWhile (· ≠ '}')).reverse
            ++ ((c :: cs).reverse.takeWhile (· ≠ '}')).reverse = c :: cs := by
          rw [← List.reverse_append, hsplit, List.reverse_reverse]
        rw [List.append_assoc, hrev, ← hrest]
        exact (List.takeWhile_append_dropWhile _ _).symm
      · intro ch hch
        have := List.mem_takeWhile_imp hch
        simpa using this
      · intro ch hch
        have := List.mem_takeWhile_imp (List.mem_reverse.mp hch)
        simpa using this
      · obtain ⟨y, ys, hy⟩ := List.exists_cons_of_ne_nil hcore
        have hcc : c = '{' := by
          have := dropWhile_head_false (· ≠ '{') content.data c cs hrest
          simpa using this
        have hrev : ((c :: cs).reverse.dropWhile (· ≠ '}')).reverse
            ++ ((c :: cs).reverse.takeWhile (· ≠ '}')).reverse = c :: cs := by
          rw [← List.reverse_append, List.takeWhile_append_dropWhile,
            List.reverse_reverse]
        rw [hy] at hrev
        have hyc : y = c := by
          have := congrArg List.head? hrev
          simpa using this
        rw [hjs, hy, hyc, hcc]
        rfl
      · have hne : (c :: cs).reverse.dropWhile (· ≠ '}') ≠ [] := by
          intro hnil
          apply hcore
          rw [hnil]
          rfl
        obtain ⟨y, ys, hy⟩ := List.exists_cons_of_ne_nil hne
        have hyy : y = '}' := by
          have := dropWhile_head_false (· ≠ '}') (c :: cs).reverse y ys hy
          simpa using this
        rw [hjs, ← List.head?_reverse, List.reverse_reverse, hy, hyy]
        rfl

/-- C8 counterexample: a response whose first balanced JSON object
carries all three keys, followed by a stray closing brace.  The
claim's parse (first balanced object, keys exist) succeeds, but the
code's greedy first-`\x7b`-to-last-`\x7d` candidate includes the stray
brace, fails `JSON.parse`, and falls back. -/
theorem parse_first_balanced_cex :
    parseOpenAIResponse
        "\x7b\"calories\":1,\"nutritionalCategories\":2,\"analysisNotes\":4\x7d\x7d"
      = getFallbackAnalysis
    ∧ claimParseFailure
        "\x7b\"calories\":1,\"nutritionalCategories\":2,\"analysisNotes\":4\x7d\x7d"
      = false := by
  constructor
  · rfl
  · decide

/-- C8 amended: response parsing takes as candidate the substring from
the first opening brace through the last closing brace of the whole
text (the greedy regex match), not the first balanced object; it
yields the fallback unless the candidate parses as JSON with all three
top-level values truthy (not merely present), and otherwise returns
the coerced result of the parsed object. -/
theorem parse_greedy_candidate_amended :
    (∀ content js : String, extractJsonCandidate content = some js →
      ∃ pre post : List Char,
        content.data = pre ++ js.data ++ post
        ∧ (∀ ch ∈ pre, ch ≠ '{')
        ∧ (∀ ch ∈ post, ch ≠ '}')
        ∧ js.data.head? = some '{'
        ∧ js.data.getLast? = some '}')
    ∧ (∀ content, parseOpenAIResponseFails content = true →
        parseOpenAIResponse content = getFallbackAnalysis)
    ∧ (∀ (content js : String) (v : JsVal),
        extractJsonCandidate content = some js →
        jsonParse js = some v →
        (jsTruthy (jsGet v "calories")
          && jsTruthy (jsGet v "nutritionalCategories")
          && jsTruthy (jsGet v "analysisNotes")) = true →
        parseOpenAIResponse content = buildParsedResult v) := by
  refine ⟨extractJsonCandidate_spec, parseOpenAIResponse_eq_fallback_of_fails, ?_⟩
  intro content js v hc hj htr
  simp [parseOpenAIResponse, hc, hj, htr]

theorem parse_greedy_candidate_amended_witness :
    (∃ pre post : List Char,
      (String.data "x\x7b\"a\":1\x7d")
          = pre ++ (String.data "\x7b\"a\":1\x7d") ++ post
        ∧ (∀ ch ∈ pre, ch ≠ '{')
        ∧ (∀ ch ∈ post, ch ≠ '}')
        ∧ (String.data "\x7b\"a\":1\x7d").head? = some '{'
        ∧ (String.data "\x7b\"a\":1\x7d").getLast? = some '}')
    ∧ parseOpenAIResponse "sin objeto json" = getFallbackAnalysis
    ∧ parseOpenAIResponse
        "\x7b\"calories\":true,\"nutritionalCategories\":true,\"analysisNotes\":\"ok\"\x7d"
      = buildParsedResult (.obj [("calories", .bool true),
          ("nutritionalCategories", .bool true), ("analysisNotes", .str "ok")]) :=
  ⟨parse_greedy_candidate_amended.1 "x\x7b\"a\":1\x7d" "\x7b\"a\":1\x7d" (by decide),
    parse_greedy_candidate_amended.2.1 "sin objeto json" (by decide),
    parse_greedy_candidate_amended.2.2
      "\x7b\"calories\":true,\"nutritionalCategories\":true,\"analysisNotes\":\"ok\"\x7d"
      "\x7b\"calories\":true,\"nutritionalCategories\":true,\"analysisNotes\":\"ok\"\x7d"
      (.obj [("calories", .bool true), ("nutritionalCategories", .bool true),
        ("analysisNotes", .str "ok")]) (by decide) (by rfl) (by decide)⟩

/-! ## Claim C1 -/

theorem cardAt_zero_of_findBy_none (st : AnalysisStore) (p : String)
    (hwf : StoreWF st) (h : st.findByNotionPageId p = none) : cardAt st p = 0 := by
  unfold cardAt
  rw [List.length_eq_zero, List.filter_eq_nil_iff]
  intro kv hkv
  simp only [decide_eq_true_eq]
  intro hpid
  have hidx := hwf.2.2 kv hkv p hpid
  cases hgi : mapGet st.pageIdIndex p with
  | none => exact hidx hgi
  | some id =>
    obtain ⟨r, hr, hrp⟩ := hwf.2.1 p id hgi
    unfold AnalysisStore.findByNotionPageId at h
    rw [hgi] at h
    dsimp only at h
    unfold AnalysisStore.findById at h
    rw [hr] at h
    simp [mapToEntity] at h

theorem cardAt_save_fresh (st : AnalysisStore) (a : NutritionAnalysis) (p : String)
    (hfresh : mapGet st.inMemoryStore a.id = none) :
    cardAt (st.save a).1 p
      = cardAt st p + (if a.notionPageId = some p then 1 else 0) := by
  have hstore : (st.save a).1.inMemoryStore
      = st.inMemoryStore ++ [(a.id, toRecord a)] := by
    show mapSet st.inMemoryStore a.id (toRecord a) = _
    exact mapSet_fresh_append _ _ _ hfresh
  unfold cardAt
  rw [hstore, List.filter_append, List.length_append]
  congr 1
  by_cases hp : a.notionPageId = some p
  · simp [toRecord, hp]
  · simp [toRecord, hp]

theorem StoreWF_save (st : AnalysisStore) (a : NutritionAnalysis) (p0 : String)
    (hwf : StoreWF st) (hfresh : mapGet st.inMemoryStore a.id = none)
    (hpid : a.notionPageId = some p0)
    (hnone : st.findByNotionPageId p0 = none) :
    StoreWF (st.save a).1 := by
  have hstore : (st.save a).1.inMemoryStore
      = st.inMemoryStore ++ [(a.id, toRecord a)] := by
    show mapSet st.inMemoryStore a.id (toRecord a) = _
    exact mapSet_fresh_append _ _ _ hfresh
  have hidx : (st.save a).1.pageIdIndex = mapSet st.pageIdIndex p0 a.id := by
    show (match a.notionPageId with
      | some p => mapSet st.pageIdIndex p a.id
      | none => st.pageIdIndex) = _
    rw [hpid]
  have hcard0 : cardAt st p0 = 0 := cardAt_zero_of_findBy_none st p0 hwf hnone
  refine ⟨?_, ?_, ?_⟩
  · intro p
    rw [cardAt_save_fresh st a p hfresh]
    by_cases hp : a.notionPageId = some p
    · rw [hp] at hpid
      have hpp : p = p0 := Option.some.inj hpid
      rw [if_pos hp, hpp, hcard0]
    · rw [if_neg hp, Nat.add_zero]
      exact hwf.1 p
  · intro p id hg
    rw [hidx] at hg
    by_cases hp : p = p0
    · subst hp
      rw [mapGet_mapSet_self] at hg
      have hid : id = a.id := (Option.some.inj hg).symm
      refine ⟨toRecord a, ?_, hpid⟩
      rw [hid, hstore, mapGet_append, hfresh]
      simp [mapGet]
    · rw [mapGet_mapSet_ne _ _ _ _ hp] at hg
      obtain ⟨r, hr, hrp⟩ := hwf.2.1 p id hg
      refine ⟨r, ?_, hrp⟩
      rw [hstore, mapGet_append, hr]
      rfl
  · intro kv hkv p hpid2
    rw [hidx]
    rw [hstore] at hkv
    rcases List.mem_append.mp hkv with hold | hnew
    · by_cases hp : p = p0
      · subst hp
        rw [mapGet_mapSet_self]
        simp
      · rw [mapGet_mapSet_ne _ _ _ _ hp]
        exact hwf.2.2 kv hold p hpid2
    · have hkv2 : kv = (a.id, toRecord a) := by simpa using hnew
      rw [hkv2] at hpid2
      have hpid3 : a.notionPageId = some p := hpid2
      have hpp : p = p0 := Option.some.inj (hpid3.symm.trans hpid)
      subst hpp
      rw [mapGet_mapSet_self]
      simp

/-- C1: with the real store wired in, processing a page preserves the
store invariant that at most one persisted AnalysisResult carries any
given source record id (assuming a fresh uuid), and whenever a run
returns a result for a record, running the same record again performs
no new analysis and no new save (empty event list), leaves the store
unchanged, and returns the same result — same id, same field
values. -/
theorem idempotency_at_most_once
    (getAllImages : String → Except String (Option NotionImageDataBundle))
    (analyze : List ImageItem → Option Time → String →
      Except String NutritionAnalysisResult)
    (updatePage : NotionUpdateData → Except String Bool)
    (st : AnalysisStore) (job : PageJob)
    (hwf : StoreWF st) (hfresh : mapGet st.inMemoryStore job.uuid = none) :
    StoreWF (processPage (storeDeps getAllImages analyze updatePage) st job).1
    ∧ (∀ p,
        cardAt (processPage (storeDeps getAllImages analyze updatePage) st job).1 p
          ≤ 1)
    ∧ (∀ dto,
        (processPage (storeDeps getAllImages analyze updatePage) st job).2.1
            = some dto →
          processPage (storeDeps getAllImages analyze updatePage)
            (processPage (storeDeps getAllImages analyze updatePage) st job).1 job
          = ((processPage (storeDeps getAllImages analyze updatePage) st job).1,
              some dto, [])) := by
  set d := storeDeps getAllImages analyze updatePage with hdd
  have hd : ∀ (s : AnalysisStore),
      d.findByNotionPageId s job.pageId = .ok (s.findByNotionPageId job.pageId) :=
    fun s => rfl
  cases hfb : st.findByNotionPageId job.pageId with
  | some a =>
    have hstep : processPage d st job = (st, some (mapToDto a), []) := by
      unfold processPage
      rw [hd st, hfb]
    rw [hstep]
    refine ⟨hwf, hwf.1, ?_⟩
    intro dto hdto
    have hdto2 : dto = mapToDto a := (Option.some.inj hdto).symm
    rw [hdto2]
    exact hstep
  | none =>
    have hdnone : d.findByNotionPageId st job.pageId = .ok none := by
      rw [hd st, hfb]
    cases hg : d.getAllImagesFromPage job.pageId with
    | error e =>
      have hstep : processPage d st job = (st, none, []) := by
        unfold processPage
        rw [hdnone]
        dsimp only
        rw [hg]
      rw [hstep]
      exact ⟨hwf, hwf.1, fun dto hdto => by simp at hdto⟩
    | ok ob =>
      cases ob with
      | none =>
        have hstep : processPage d st job = (st, none, []) := by
          unfold processPage
          rw [hdnone]
          dsimp only
          rw [hg]
        rw [hstep]
        exact ⟨hwf, hwf.1, fun dto hdto => by simp at hdto⟩
      | some bundle =>
        cases hbi : bundle.images with
        | nil =>
          have hstep : processPage d st job = (st, none, []) := by
            unfold processPage
            rw [hdnone]
            dsimp only
            rw [hg]
            dsimp only
            rw [hbi]
          rw [hstep]
          exact ⟨hwf, hwf.1, fun dto hdto => by simp at hdto⟩
        | cons img0 irest =>
          cases hana : d.analyzeImages bundle.images bundle.extractedDateTime
              bundle.additionalInfo with
          | error e =>
            have hstep : processPage d st job = (st, none, [.analyzeCalled]) := by
              unfold processPage
              rw [hdnone]
              dsimp only
              rw [hg]
              dsimp only
              rw [hbi]
              dsimp only
              rw [← hbi, hana]
            rw [hstep]
            exact ⟨hwf, hwf.1, fun dto hdto => by simp at hdto⟩
          | ok res =>
            have hfresh2 : mapGet st.inMemoryStore
                (builtAnalysis job bundle img0 res).id = none := hfresh
            have hwf2 : StoreWF ((st.save (builtAnalysis job bundle img0 res)).1) :=
              StoreWF_save st (builtAnalysis job bundle img0 res) job.pageId hwf
                hfresh2 rfl hfb
            have hsave : d.save st (builtAnalysis job bundle img0 res)
                = .ok ((st.save (builtAnalysis job bundle img0 res)).1,
                    builtAnalysis job bundle img0 res) := rfl
            have hfb2 : ((st.save (builtAnalysis job bundle img0 res)).1).findByNotionPageId
                job.pageId = some (builtAnalysis job bundle img0 res) := by
              unfold AnalysisStore.findByNotionPageId
              have h1 : mapGet
                  ((st.save (builtAnalysis job bundle img0 res)).1).pageIdIndex
                  job.pageId = some job.uuid := by
                show mapGet (mapSet st.pageIdIndex job.pageId job.uuid) job.pageId = _
                exact mapGet_mapSet_self _ _ _
              rw [h1]
              dsimp only
              unfold AnalysisStore.findById
              have h2 : mapGet
                  ((st.save (builtAnalysis job bundle img0 res)).1).inMemoryStore
                  job.uuid = some (toRecord (builtAnalysis job bundle img0 res)) := by
                show mapGet (mapSet st.inMemoryStore job.uuid
                  (toRecord (builtAnalysis job bundle img0 res))) job.uuid = _
                exact mapGet_mapSet_self _ _ _
              rw [h2]
              rfl
            cases hup : d.updatePage (builtUpdateData job bundle res) with
            | error e =>
              have hstep : processPage d st job
                  = ((st.save (builtAnalysis job bundle img0 res)).1, none,
                    [.analyzeCalled, .saveCalled]) := by
                unfold processPage
                rw [hdnone]
                dsimp only
                rw [hg]
                dsimp only
                rw [hbi]
                dsimp only
                rw [← hbi, hana]
                dsimp only
                rw [hsave]
                dsimp only
                rw [hup]
              rw [hstep]
              exact ⟨hwf2, hwf2.1, fun dto hdto => by simp at hdto⟩
            | ok b =>
              have hstep : processPage d st job
                  = ((st.save (builtAnalysis job bundle img0 res)).1,
                    some (mapToDto (builtAnalysis job bundle img0 res)),
                    [.analyzeCalled, .saveCalled]) := by
                unfold processPage
                rw [hdnone]
                dsimp only
                rw [hg]
                dsimp only
                rw [hbi]
                dsimp only
                rw [← hbi, hana]
                dsimp only
                rw [hsave]
                dsimp only
                rw [hup]
              rw [hstep]
              refine ⟨hwf2, hwf2.1, ?_⟩
              intro dto hdto
              have hdto2 : dto = mapToDto (builtAnalysis job bundle img0 res) :=
                (Option.some.inj hdto).symm
              rw [hdto2]
              unfold processPage
              rw [hd ((st.save (builtAnalysis job bundle img0 res)).1), hfb2]

theorem idempotency_at_most_once_witness :
    processPage (storeDeps (fun _ => .ok (some ⟨[⟨"b", "u"⟩], none, ""⟩))
        (fun _ _ _ => .ok getFallbackAnalysis) (fun _ => .ok true))
      (processPage (storeDeps (fun _ => .ok (some ⟨[⟨"b", "u"⟩], none, ""⟩))
        (fun _ _ _ => .ok getFallbackAnalysis) (fun _ => .ok true))
        AnalysisStore.empty ⟨"P", "uuid1", 5⟩).1 ⟨"P", "uuid1", 5⟩
    = ((processPage (storeDeps (fun _ => .ok (some ⟨[⟨"b", "u"⟩], none, ""⟩))
        (fun _ _ _ => .ok getFallbackAnalysis) (fun _ => .ok true))
        AnalysisStore.empty ⟨"P", "uuid1", 5⟩).1,
      some (mapToDto (builtAnalysis ⟨"P", "uuid1", 5⟩ ⟨[⟨"b", "u"⟩], none, ""⟩
        ⟨"b", "u"⟩ getFallbackAnalysis)), []) :=
  (idempotency_at_most_once (fun _ => .ok (some ⟨[⟨"b", "u"⟩], none, ""⟩))
    (fun _ _ _ => .ok getFallbackAnalysis) (fun _ => .ok true)
    AnalysisStore.empty ⟨"P", "uuid1", 5⟩
    ⟨fun p => by simp [cardAt, AnalysisStore.empty],
      fun p id h => by simp [AnalysisStore.empty, mapGet] at h,
      fun kv hkv => by simp [AnalysisStore.empty] at hkv⟩
    rfl).2.2
    (mapToDto (builtAnalysis ⟨"P", "uuid1", 5⟩ ⟨[⟨"b", "u"⟩], none, ""⟩
      ⟨"b", "u"⟩ getFallbackAnalysis)) rfl

/-! ## Claim C3 -/

theorem processPage_skip_of_throws (d : Deps σ) (st : σ) (j : PageJob)
    (h : processingThrowsAt d st j) : (processPage d st j).2.1 = none := by
  obtain ⟨hfind, hstage⟩ := h
  unfold processPage
  rw [hfind]
  dsimp only
  rcases hstage with ⟨e, hget⟩ | ⟨bundle, img0, irest, hget, hbimg, hstage2⟩
  · rw [hget]
  · rw [hget]
    dsimp only
    rw [hbimg]
    dsimp only
    rcases hstage2 with ⟨e, hana⟩ | hrest
    · rw [hbimg] at hana
      rw [hana]
    · cases hana : d.analyzeImages (img0 :: irest) bundle.extractedDateTime
          bundle.additionalInfo with
      | error e => rfl
      | ok res =>
        dsimp only
        have hana2 : d.analyzeImages bundle.images bundle.extractedDateTime
            bundle.additionalInfo = .ok res := by rw [hbimg]; exact hana
        rcases hrest res hana2 with ⟨e, hsv⟩ | hupd
        · rw [hsv]
        · cases hsv : d.save st (builtAnalysis j bundle img0 res) with
          | error e => rfl
          | ok pair =>
            obtain ⟨st2, saved⟩ := pair
            dsimp only
            obtain ⟨e, hup⟩ := hupd st2 saved hsv
            rw [hup]

theorem processPage_dto_pageId (d : Deps σ) (st : σ) (job : PageJob)
    (dto : ResponseDto)
    (hfindc : ∀ st' p a, d.findByNotionPageId st' p = .ok (some a) →
      a.notionPageId = some p)
    (hsavec : ∀ st1 a st2 a2, d.save st1 a = .ok (st2, a2) → a2 = a)
    (h : (processPage d st job).2.1 = some dto) :
    dto.notionPageId = some job.pageId := by
  unfold processPage at h
  cases hf : d.findByNotionPageId st job.pageId with
  | error e => rw [hf] at h; simp at h
  | ok existing =>
    cases existing with
    | some a =>
      rw [hf] at h
      dsimp only at h
      simp only [Option.some.injEq] at h
      rw [← h]
      exact hfindc st job.pageId a hf
    | none =>
      rw [hf] at h
      dsimp only at h
      cases hg : d.getAllImagesFromPage job.pageId with
      | error e => rw [hg] at h; simp at h
      | ok ob =>
        cases ob with
        | none => rw [hg] at h; simp at h
        | some bundle =>
          rw [hg] at h
          dsimp only at h
          cases hbi : bundle.images with
          | nil => rw [hbi] at h; simp at h
          | cons img0 irest =>
            rw [hbi] at h
            dsimp only at h
            cases hana : d.analyzeImages (img0 :: irest) bundle.extractedDateTime
                bundle.additionalInfo with
            | error e => rw [hana] at h; simp at h
            | ok res =>
              rw [hana] at h
              dsimp only at h
              cases hsv : d.save st (builtAnalysis job bundle img0 res) with
              | error e => rw [hsv] at h; simp at h
              | ok pair =>
                obtain ⟨st2, saved⟩ := pair
                rw [hsv] at h
                dsimp only at h
                cases hup : d.updatePage (builtUpdateData job bundle res) with
                | error e => rw [hup] at h; simp at h
                | ok b =>
                  rw [hup] at h
                  dsimp only at h
                  simp only [Option.some.injEq] at h
                  rw [← h, hsavec st (builtAnalysis job bundle img0 res) st2 saved hsv]
                  rfl

theorem executeLoop_dto_pageIds (d : Deps σ)
    (hfindc : ∀ st' p a, d.findByNotionPageId st' p = .ok (some a) →
      a.notionPageId = some p)
    (hsavec : ∀ st1 a st2 a2, d.save st1 a = .ok (st2, a2) → a2 = a) :
    ∀ (jobs : List PageJob) (st : σ), ∀ dto ∈ (executeLoop d st jobs).2,
      ∃ job ∈ jobs, dto.notionPageId = some job.pageId := by
  intro jobs
  induction jobs with
  | nil => intro st dto hdto; simp [executeLoop] at hdto
  | cons job rest ih =>
    intro st dto hdto
    unfold executeLoop at hdto
    dsimp only at hdto
    rcases List.mem_append.mp hdto with hleft | hright
    · have hsome : (processPage d st job).2.1 = some dto := by
        cases hp : (processPage d st job).2.1 with
        | none => rw [hp] at hleft; simp [Option.toList] at hleft
        | some x =>
          rw [hp] at hleft
          simp only [Option.toList, List.mem_singleton] at hleft
          rw [hleft]
      exact ⟨job, List.mem_cons_self job rest,
        processPage_dto_pageId d st job dto hfindc hsavec hsome⟩
    · obtain ⟨job', hmem, hpid⟩ := ih (processPage d st job).1 dto hright
      exact ⟨job', List.mem_cons_of_mem job hmem, hpid⟩

theorem executeLoop_append (d : Deps σ) (st : σ) (l1 l2 : List PageJob) :
    executeLoop d st (l1 ++ l2)
      = ((executeLoop d (executeLoop d st l1).1 l2).1,
        (executeLoop d st l1).2 ++ (executeLoop d (executeLoop d st l1).1 l2).2) := by
  induction l1 generalizing st with
  | nil => simp [executeLoop]
  | cons j r ih =>
    have hL : executeLoop d st (j :: (r ++ l2))
        = ((executeLoop d (processPage d st j).1 (r ++ l2)).1,
          (processPage d st j).2.1.toList
            ++ (executeLoop d (processPage d st j).1 (r ++ l2)).2) := rfl
    have hR : executeLoop d st (j :: r)
        = ((executeLoop d (processPage d st j).1 r).1,
          (processPage d st j).2.1.toList
            ++ (executeLoop d (processPage d st j).1 r).2) := rfl
    show executeLoop d st (j :: (r ++ l2)) = _
    rw [hL, ih (processPage d st j).1, hR]
    simp [List.append_assoc]

/-- C3: when record j's processing reaches a collaborator that throws
at any stage — extraction, analysis, persistence, or write-back — the
loop still processes every record after j (the run equals the run of
the records before j followed by the run of the records after j from
the post-j store), record j contributes no entry, and no returned
entry carries j's page id; the completed records' results all
appear. -/
theorem partial_batch_isolation (d : Deps σ) (st : σ) (l1 l2 : List PageJob)
    (j : PageJob)
    (hfindc : ∀ st' p a, d.findByNotionPageId st' p = .ok (some a) →
      a.notionPageId = some p)
    (hsavec : ∀ st1 a st2 a2, d.save st1 a = .ok (st2, a2) → a2 = a)
    (hnodup : ∀ job ∈ l1 ++ l2, job.pageId ≠ j.pageId)
    (hthrow : processingThrowsAt d (executeLoop d st l1).1 j) :
    (processPage d (executeLoop d st l1).1 j).2.1 = none
    ∧ executeLoop d st (l1 ++ j :: l2)
      = ((executeLoop d (processPage d (executeLoop d st l1).1 j).1 l2).1,
        (executeLoop d st l1).2
          ++ (executeLoop d (processPage d (executeLoop d st l1).1 j).1 l2).2)
    ∧ (∀ dto ∈ (executeLoop d st (l1 ++ j :: l2)).2,
        dto.notionPageId ≠ some j.pageId) := by
  have hskip : (processPage d (executeLoop d st l1).1 j).2.1 = none :=
    processPage_skip_of_throws d _ j hthrow
  have hdecomp : executeLoop d st (l1 ++ j :: l2)
      = ((executeLoop d (processPage d (executeLoop d st l1).1 j).1 l2).1,
        (executeLoop d st l1).2
          ++ (executeLoop d (processPage d (executeLoop d st l1).1 j).1 l2).2) := by
    rw [executeLoop_append d st l1 (j :: l2)]
    have hstep : executeLoop d (executeLoop d st l1).1 (j :: l2)
        = ((executeLoop d (processPage d (executeLoop d st l1).1 j).1 l2).1,
          (processPage d (executeLoop d st l1).1 j).2.1.toList
            ++ (executeLoop d (processPage d (executeLoop d st l1).1 j).1 l2).2) :=
      rfl
    rw [hstep, hskip]
    simp
  refine ⟨hskip, hdecomp, ?_⟩
  intro dto hdto
  rw [hdecomp] at hdto
  dsimp only at hdto
  rcases List.mem_append.mp hdto with h1 | h2
  · obtain ⟨job, hmem, hpid⟩ := executeLoop_dto_pageIds d hfindc hsavec l1 st dto h1
    rw [hpid]
    intro hcontra
    exact hnodup job (List.mem_append.mpr (Or.inl hmem))
      (Option.some.inj hcontra)
  · obtain ⟨job, hmem, hpid⟩ := executeLoop_dto_pageIds d hfindc hsavec l2 _ dto h2
    rw [hpid]
    intro hcontra
    exact hnodup job (List.mem_append.mpr (Or.inr hmem))
      (Option.some.inj hcontra)

theorem partial_batch_isolation_witness :
    (processPage demoDeps
      (executeLoop demoDeps () [⟨"A", "uA", 0⟩]).1 ⟨"J", "uJ", 2⟩).2.1 = none :=
  (partial_batch_isolation demoDeps () [⟨"A", "uA", 0⟩] [⟨"B", "uB", 1⟩]
    ⟨"J", "uJ", 2⟩
    (fun st' p a h => by simp [demoDeps] at h)
    (fun st1 a st2 a2 h => by
      have h2 := congrArg Prod.snd (Except.ok.inj h)
      exact h2.symm)
    (by decide)
    ⟨rfl, Or.inl ⟨"boom", rfl⟩⟩).1

/-! ## Claim C4 -/

theorem replaceFirstChars_append_left (pat repl a b : List Char)
    (hne : pat ≠ []) (hfree : ∀ c ∈ a, pat.head? ≠ some c) :
    replaceFirstChars pat repl (a ++ b) = a ++ replaceFirstChars pat repl b := by
  induction a with
  | nil => simp
  | cons c a' ih =>
    have hnp : pat.isPrefixOf (c :: (a' ++ b)) = false := by
      cases pat with
      | nil => exact absurd rfl hne
      | cons p ps =>
        have hpc : ¬ (p == c) = true := by
          intro hh
          exact hfree c (List.mem_cons_self c a') (by simp [beq_iff_eq.mp hh])
        simp [List.isPrefixOf, hpc]
    rw [List.cons_append]
    simp only [replaceFirstChars, hnp, Bool.false_eq_true, if_false]
    rw [ih (fun x hx => hfree x (List.mem_cons_of_mem c hx))]
    rfl

theorem jsReplaceFirst_append_left (a b pat repl : String)
    (hne : pat.data ≠ []) (hfree : ∀ c ∈ a.data, pat.data.head? ≠ some c) :
    jsReplaceFirst (a ++ b) pat repl = a ++ jsReplaceFirst b pat repl := by
  apply String.ext
  show replaceFirstChars pat.data repl.data (a ++ b).data
    = (a ++ String.mk (replaceFirstChars pat.data repl.data b.data)).data
  rw [String.data_append, String.data_append,
    replaceFirstChars_append_left pat.data repl.data a.data b.data hne hfree]

theorem digitChar_ne_brace (n : Nat) : digitChar n ≠ '{' := by
  unfold digitChar
  split <;> decide

theorem natToDecimalAux_no_brace : ∀ (fuel n : Nat) (acc : List Char),
    (∀ c ∈ acc, c ≠ '{') → ∀ c ∈ natToDecimalAux fuel n acc, c ≠ '{' := by
  intro fuel
  induction fuel with
  | zero =>
    intro n acc hacc c hc
    simp only [natToDecimalAux] at hc
    exact hacc c hc
  | succ f ih =>
    intro n acc hacc c hc
    unfold natToDecimalAux at hc
    by_cases h : n < 10
    · rw [if_pos h] at hc
      cases List.mem_cons.mp hc with
      | inl h0 => rw [h0]; exact digitChar_ne_brace n
      | inr hm => exact hacc c hm
    · rw [if_neg h] at hc
      refine ih (n / 10) _ ?_ c hc
      intro x hx
      cases List.mem_cons.mp hx with
      | inl h0 => rw [h0]; exact digitChar_ne_brace (n % 10)
      | inr hm => exact hacc x hm

theorem natToDecimal_no_brace (n : Nat) : ∀ c ∈ (natToDecimal n).data, c ≠ '{' :=
  natToDecimalAux_no_brace (n + 1) n [] (by simp)

set_option maxRecDepth 40000 in
theorem multipleImagesPrefix_no_brace (n : Nat) :
    ∀ c ∈ (multipleImagesPrefix n).data, c ≠ '{' := by
  intro c hc
  unfold multipleImagesPrefix at hc
  simp only [String.data_append, List.mem_append] at hc
  rcases hc with (((h1 | h2) | h3) | h4) | h5
  · exact (by decide :
      ∀ x ∈ ("IMPORTANTE: Estoy proporcionando " : String).data, x ≠ '{') c h1
  · exact natToDecimal_no_brace n c h2
  · exact (by decide :
      ∀ x ∈ (" imágenes que representan DIFERENTES PLATOS O ELEMENTOS de una MISMA COMIDA. \nAnaliza TODAS las imágenes en conjunto y proporciona un análisis nutricional COMBINADO que incluya todos los alimentos mostrados en todas las imágenes.\nLas " : String).data, x ≠ '{') c h3
  · exact natToDecimal_no_brace n c h4
  · exact (by decide :
      ∀ x ∈ (" imágenes son parte de la misma comida/sesión alimentaria.\n\n" : String).data, x ≠ '{') c h5

theorem multi_prompt_decomp (template timeContext infoContext : String) (n : Nat) :
    getMultipleImagesNutritionAnalysisPrompt template n timeContext infoContext
      = multipleImagesPrefix n
        ++ getNutritionAnalysisPrompt template timeContext infoContext := by
  unfold getMultipleImagesNutritionAnalysisPrompt getNutritionAnalysisPrompt
  rw [jsReplaceFirst_append_left (multipleImagesPrefix n) template
    "\x7b\x7btimeContext\x7d\x7d" timeContext (by decide)
    (fun c hc h => absurd (Option.some.inj
      (show some '{' = some c from h)).symm (multipleImagesPrefix_no_brace n c hc))]
  rw [jsReplaceFirst_append_left (multipleImagesPrefix n)
    (jsReplaceFirst template "\x7b\x7btimeContext\x7d\x7d" timeContext)
    "\x7b\x7binfoContext\x7d\x7d" infoContext (by decide)
    (fun c hc h => absurd (Option.some.inj
      (show some '{' = some c from h)).symm (multipleImagesPrefix_no_brace n c hc))]

set_option maxRecDepth 40000 in
theorem sameMealMarker_infix_multi (n : Nat) (rest : String) :
    sameMealMarker.data <:+: (multipleImagesPrefix n ++ rest).data := by
  have hsplit : (" imágenes que representan DIFERENTES PLATOS O ELEMENTOS de una MISMA COMIDA. \nAnaliza TODAS las imágenes en conjunto y proporciona un análisis nutricional COMBINADO que incluya todos los alimentos mostrados en todas las imágenes.\nLas " : String)
      = (" imágenes que representan " : String) ++ sameMealMarker
        ++ (". \nAnaliza TODAS las imágenes en conjunto y proporciona un análisis nutricional COMBINADO que incluya todos los alimentos mostrados en todas las imágenes.\nLas " : String) := by
    decide
  refine ⟨("IMPORTANTE: Estoy proporcionando " : String).data
      ++ (natToDecimal n).data ++ (" imágenes que representan " : String).data,
    (". \nAnaliza TODAS las imágenes en conjunto y proporciona un análisis nutricional COMBINADO que incluya todos los alimentos mostrados en todas las imágenes.\nLas " : String).data
      ++ (natToDecimal n).data
      ++ (" imágenes son parte de la misma comida/sesión alimentaria.\n\n" : String).data
      ++ rest.data, ?_⟩
  unfold multipleImagesPrefix
  rw [hsplit]
  simp [String.data_append, List.append_assoc]

/-- C4: for a record with N ≥ 1 extracted images, the analyzer sends
exactly one model request carrying all N images (in order, as data
URLs), the instruction contains the same-meal joint-analysis statement
exactly when N > 1 (provided the rendered base prompt does not itself
contain that statement), and the orchestration's resulting
AnalysisResult uses the first image's URL as representative. -/
theorem multi_image_single_invocation
    (template : String) (outcome : ModelOutcome) (images : List ImageItem)
    (img0 : ImageItem) (irest : List ImageItem) (himgs : images = img0 :: irest)
    (extractedDateTime : Option Time) (additionalInfo : String)
    (hbase : ¬ (sameMealMarker.data <:+:
      (getNutritionAnalysisPrompt template (renderTimeContext extractedDateTime)
        (renderInfoContext additionalInfo)).data)) :
    (analyzeImagesNutrition template outcome images extractedDateTime
        additionalInfo).2
      = [builtModelRequest template images extractedDateTime additionalInfo]
    ∧ (analyzeImagesNutrition template outcome images extractedDateTime
        additionalInfo).2.length = 1
    ∧ (builtModelRequest template images extractedDateTime
        additionalInfo).imageUrls
      = images.map (fun img => "data:image/jpeg;base64," ++ img.imageBuffer)
    ∧ (∀ req ∈ (analyzeImagesNutrition template outcome images extractedDateTime
        additionalInfo).2,
        ((sameMealMarker.data <:+: req.prompt.data) ↔ images.length > 1))
    ∧ (∀ (σ : Type) (d : Deps σ) (st : σ) (job : PageJob)
        (bundle : NotionImageDataBundle) (dto : ResponseDto),
        d.findByNotionPageId st job.pageId = .ok none →
        d.getAllImagesFromPage job.pageId = .ok (some bundle) →
        bundle.images = images →
        (∀ st1 a st2 a2, d.save st1 a = .ok (st2, a2) → a2 = a) →
        (processPage d st job).2.1 = some dto →
        dto.imageUrl = img0.imageUrl) := by
  refine ⟨rfl, rfl, by simp [builtModelRequest], ?_, ?_⟩
  · intro req hreq
    have hr : req = builtModelRequest template images extractedDateTime
        additionalInfo := by
      simpa [analyzeImagesNutrition] using hreq
    have hprompt : req.prompt = promptForImages template images.length
        (renderTimeContext extractedDateTime)
        (renderInfoContext additionalInfo) := by
      rw [hr]
      rfl
    rw [hprompt]
    by_cases hn : images.length > 1
    · refine ⟨fun _ => hn, fun _ => ?_⟩
      show sameMealMarker.data <:+: (promptForImages template images.length
        (renderTimeContext extractedDateTime) (renderInfoContext additionalInfo)).data
      unfold promptForImages
      rw [if_pos hn, multi_prompt_decomp]
      exact sameMealMarker_infix_multi images.length _
    · refine ⟨fun hmark => absurd ?_ hbase, fun hgt => absurd hgt hn⟩
      show sameMealMarker.data <:+: _
      have : promptForImages template images.length
          (renderTimeContext extractedDateTime) (renderInfoContext additionalInfo)
        = getNutritionAnalysisPrompt template (renderTimeContext extractedDateTime)
            (renderInfoContext additionalInfo) := by
        unfold promptForImages
        rw [if_neg hn]
      rw [← this]
      exact hmark
  · intro σ d st job bundle dto hfind hget hbimg hsave hdto
    unfold processPage at hdto
    rw [hfind, hget] at hdto
    dsimp only at hdto
    rw [hbimg, himgs] at hdto
    cases hana : d.analyzeImages (img0 :: irest) bundle.extractedDateTime
        bundle.additionalInfo with
    | error e => rw [hana] at hdto; simp at hdto
    | ok analysisResult =>
      rw [hana] at hdto
      dsimp only at hdto
      cases hsv : d.save st (builtAnalysis job bundle img0 analysisResult) with
      | error e => rw [hsv] at hdto; simp at hdto
      | ok pair =>
        obtain ⟨st2, saved⟩ := pair
        rw [hsv] at hdto
        dsimp only at hdto
        cases hup : d.updatePage (builtUpdateData job bundle analysisResult) with
        | error e => rw [hup] at hdto; simp at hdto
        | ok b =>
          rw [hup] at hdto
          dsimp only at hdto
          have hsaved : saved = builtAnalysis job bundle img0 analysisResult :=
            hsave st (builtAnalysis job bundle img0 analysisResult) st2 saved hsv
          have hdto2 : dto = mapToDto saved := by
            have := hdto
            simp only [Option.some.injEq] at this
            exact this.symm
          rw [hdto2, hsaved]
          rfl

theorem multi_image_single_invocation_witness :
    (sameMealMarker.data <:+:
      (builtModelRequest
        "Plantilla \x7b\x7btimeContext\x7d\x7d \x7b\x7binfoContext\x7d\x7d"
        [⟨"bufA", "urlA"⟩, ⟨"bufB", "urlB"⟩] none "").prompt.data)
    ∧ (mapToDto (builtAnalysis ⟨"pg", "uuid", 0⟩
        ⟨[⟨"bufA", "urlA"⟩, ⟨"bufB", "urlB"⟩], none, ""⟩
        ⟨"bufA", "urlA"⟩ getFallbackAnalysis)).imageUrl = "urlA" := by
  have H := multi_image_single_invocation
    "Plantilla \x7b\x7btimeContext\x7d\x7d \x7b\x7binfoContext\x7d\x7d"
    .respondsNone [⟨"bufA", "urlA"⟩, ⟨"bufB", "urlB"⟩]
    ⟨"bufA", "urlA"⟩ [⟨"bufB", "urlB"⟩] rfl none "" (by decide)
  constructor
  · exact (H.2.2.2.1
      (builtModelRequest
        "Plantilla \x7b\x7btimeContext\x7d\x7d \x7b\x7binfoContext\x7d\x7d"
        [⟨"bufA", "urlA"⟩, ⟨"bufB", "urlB"⟩] none "")
      (by simp [analyzeImagesNutrition])).mpr (by decide)
  · exact H.2.2.2.2 Unit
      ⟨fun _ _ => .ok none, fun st a => .ok (st, a),
        fun _ => .ok (some ⟨[⟨"bufA", "urlA"⟩, ⟨"bufB", "urlB"⟩], none, ""⟩),
        fun _ _ _ => .ok getFallbackAnalysis, fun _ => .ok true⟩
      () ⟨"pg", "uuid", 0⟩ ⟨[⟨"bufA", "urlA"⟩, ⟨"bufB", "urlB"⟩], none, ""⟩
      (mapToDto (builtAnalysis ⟨"pg", "uuid", 0⟩
        ⟨[⟨"bufA", "urlA"⟩, ⟨"bufB", "urlB"⟩], none, ""⟩
        ⟨"bufA", "urlA"⟩ getFallbackAnalysis))
      rfl rfl rfl (fun st1 a st2 a2 h => by cases h; rfl) rfl

/-! ## Claim C6 -/

theorem orElse_eq_or (a b : Option α) : (a <|> b) = a.or b := by
  cases a <;> rfl

theorem findImageUrl_eq_head (page : NotionPage) :
    findImageUrl page = (imageUrlCandidates page).head? := by
  unfold findImageUrl imageUrlCandidates anyFilesPropertyUrl blocksUrl
  rw [List.head?_append, List.head?_append]
  rw [orElse_eq_or, orElse_eq_or]
  cases fotoPropertyUrl page <;> rfl

theorem extract_of_findImageUrl_some (env : ExtractEnv) (page : NotionPage)
    (u : String) (h : findImageUrl page = some u) :
    extractImageDataFromPage env page =
      (match env.download u with
      | .error e => .error e
      | .ok originalBuffer =>
        match env.optimize originalBuffer with
        | .error e => .error e
        | .ok imageBuffer =>
          .ok (some
            { imageUrl := u
              extractedDateTime :=
                extractImageCreationDate (env.exifParse originalBuffer)
              pageId := page.id
              imageBuffer := imageBuffer
              additionalInfo := extractAdditionalInfo page.properties })) := by
  unfold extractImageDataFromPage
  rw [h]

/-- C6 counterexample: a page whose primary image field carries two
resolvable image files.  The claim's gathering collects both URLs; the
code's extraction bundles exactly one (the first), so the two sides
disagree on this page. -/
theorem extraction_single_image_cex :
    extractionResultUrls (extractImageDataFromPage
      { download := fun _ => .ok "bytes"
        exifParse := fun _ => .ok none
        optimize := fun b => .ok b }
      { id := "p6"
        properties := [("Foto", .files
          [ { name := "a.jpg", fileUrl := some "https://img/a.jpg", externalUrl := none }
          , { name := "b.jpg", fileUrl := some "https://img/b.jpg", externalUrl := none } ])]
        blocks := [] })
      ≠ claimGatherAllImageUrls
      { id := "p6"
        properties := [("Foto", .files
          [ { name := "a.jpg", fileUrl := some "https://img/a.jpg", externalUrl := none }
          , { name := "b.jpg", fileUrl := some "https://img/b.jpg", externalUrl := none } ])]
        blocks := [] } := by
  decide

/-- C6 amended: the extraction selects at most one image — the first
candidate URL in discovery order (first file of the primary field,
then the first file of each other file-typed field whether or not it
is an image, then image blocks and image-extension file blocks) — and
returns null exactly when this search finds no URL at all. -/
theorem extraction_first_candidate_amended (env : ExtractEnv) (page : NotionPage) :
    (extractImageDataFromPage env page = .ok none ↔ imageUrlCandidates page = [])
    ∧ (∀ d, extractImageDataFromPage env page = .ok (some d) →
        (imageUrlCandidates page).head? = some d.imageUrl) := by
  have hfind : findImageUrl page = (imageUrlCandidates page).head? :=
    findImageUrl_eq_head page
  constructor
  · constructor
    · intro h
      cases hc : imageUrlCandidates page with
      | nil => rfl
      | cons u rest =>
        exfalso
        have hsome : findImageUrl page = some u := by rw [hfind, hc]; rfl
        rw [extract_of_findImageUrl_some env page u hsome] at h
        cases hd : env.download u with
        | error e => rw [hd] at h; exact absurd h (by simp)
        | ok buf =>
          rw [hd] at h
          dsimp only at h
          cases ho : env.optimize buf with
          | error e => rw [ho] at h; exact absurd h (by simp)
          | ok buf2 => rw [ho] at h; exact absurd h (by simp)
    · intro h
      have hnone : findImageUrl page = none := by
        rw [hfind, h]; rfl
      unfold extractImageDataFromPage
      rw [hnone]
  · intro d h
    cases hf : findImageUrl page with
    | none =>
      unfold extractImageDataFromPage at h
      rw [hf] at h
      exact absurd h (by simp)
    | some u =>
      rw [extract_of_findImageUrl_some env page u hf] at h
      rw [← hfind, hf]
      cases hd : env.download u with
      | error e => rw [hd] at h; exact absurd h (by simp)
      | ok buf =>
        rw [hd] at h
        dsimp only at h
        cases ho : env.optimize buf with
        | error e => rw [ho] at h; exact absurd h (by simp)
        | ok buf2 =>
          rw [ho] at h
          dsimp only at h
          have hd2 := h
          simp only [Except.ok.injEq, Option.some.injEq] at hd2
          rw [← hd2]

theorem extraction_first_candidate_amended_witness :
    (imageUrlCandidates
      { id := "pw"
        properties := [("Foto", .files
          [ { name := "w.png", fileUrl := some "https://img/w.png",
              externalUrl := none } ])]
        blocks := [] }).head? = some "https://img/w.png" :=
  (extraction_first_candidate_amended
    { download := fun _ => .ok "bytes"
      exifParse := fun _ => .ok none
      optimize := fun b => .ok b }
    { id := "pw"
      properties := [("Foto", .files
        [ { name := "w.png", fileUrl := some "https://img/w.png",
            externalUrl := none } ])]
      blocks := [] }).2
    { imageUrl := "https://img/w.png", extractedDateTime := none, pageId := "pw",
      imageBuffer := "bytes", additionalInfo := "" } rfl

theorem store_duplicate_saves_witness :
    (mapGet (((AnalysisStore.empty.save
        { id := "id1", createdAt := 0, updatedAt := 0, imageUrl := "u1",
          extractedDateTime := none, calories := (getFallbackAnalysis).calories,
          nutritionalCategories := (getFallbackAnalysis).nutritionalCategories,
          analysisNotes := "n1", notionPageId := some "page" }).1.save
        { id := "id2", createdAt := 1, updatedAt := 1, imageUrl := "u2",
          extractedDateTime := none, calories := (getFallbackAnalysis).calories,
          nutritionalCategories := (getFallbackAnalysis).nutritionalCategories,
          analysisNotes := "n2", notionPageId := some "page" }).1).inMemoryStore
      "id1").isSome = true :=
  let h := store_duplicate_saves AnalysisStore.empty
    { id := "id1", createdAt := 0, updatedAt := 0, imageUrl := "u1",
      extractedDateTime := none, calories := (getFallbackAnalysis).calories,
      nutritionalCategories := (getFallbackAnalysis).nutritionalCategories,
      analysisNotes := "n1", notionPageId := some "page" }
    { id := "id2", createdAt := 1, updatedAt := 1, imageUrl := "u2",
      extractedDateTime := none, calories := (getFallbackAnalysis).calories,
      nutritionalCategories := (getFallbackAnalysis).nutritionalCategories,
      analysisNotes := "n2", notionPageId := some "page" }
    "page" (by simp) rfl rfl
  by rw [h.1]; rfl

end Citadel
